import Mathlib

/-!
Shallow embedding of the safecast-new-map migration scripts
(migrate_all_data.py, migrate_spectra.py, update_spectra_columns.py).

The two database engines are modelled as in-memory tables:
the SQLite source is read-only, the PostgreSQL target is the state that
the scripts transform.  Machine numerics that matter to the claims are
only the primary keys (Nat), the epoch timestamps (Int) and the nullable
scalar columns (Option Int); floating point values never enter any
comparison other than against NULL and 0, so Int stands in for the
numeric columns.  Console I/O is dropped; the two interactive yes/no
answers of migrate_all_data.py (the re-check prompt and the main
confirmation) are Bool parameters of the run functions, as is the single
confirmation of the other two scripts.

Python library calls used by the scripts are modelled as follows:
 - datetime.fromtimestamp converts POSIX seconds to LOCAL calendar time.
   A calendar timestamp is represented by its naive seconds value (the
   wall-clock displayed instant measured in seconds from
   1970-01-01 00:00:00), so fromtimestamp adds the platform timezone
   offset tz; the direct UTC epoch-to-timestamp mapping is tz = 0.
 - json.loads on the channels string is an abstract parameter
   jsonLoads : String -> Option (List Int); Option.none is the parse
   failure that the bare except in update_spectra_columns.py catches.
-/

/-- A value of the channels column as the scripts see it: SQL NULL,
a JSON-encoded text, or an already-native numeric array. -/
inductive PyVal where
  | null : PyVal
  | str : String → PyVal
  | lst : List Int → PyVal
deriving DecidableEq

/-- One row of the spectra table (identical column list in both stores;
created_at is an epoch number in the source and a calendar timestamp,
represented by its naive seconds value, in the target). -/
structure SpectrumRow where
  id : Nat
  marker_id : Nat
  channels : PyVal
  channel_count : Option Int
  energy_min_kev : Option Int
  energy_max_kev : Option Int
  live_time_sec : Option Int
  real_time_sec : Option Int
  device_model : Option String
  calibration : Option String
  source_format : Option String
  filename : Option String
  raw_data : Option String
  created_at : Int
deriving DecidableEq

/-- A markers row in the SQLite source (has_spectrum is an integer flag
there, queried with has_spectrum = 1). -/
structure SQLiteMarker where
  id : Nat
  has_spectrum : Int
  speed : Option Int
deriving DecidableEq

/-- A markers row in the PostgreSQL target (has_spectrum is boolean). -/
structure PGMarker where
  id : Nat
  has_spectrum : Bool
  speed : Option Int
deriving DecidableEq

/-- The SQLite source database. -/
structure SQLiteDb where
  markers : List SQLiteMarker
  spectra : List SpectrumRow
deriving DecidableEq

/-- The PostgreSQL target database. -/
structure PGDb where
  markers : List PGMarker
  spectra : List SpectrumRow
deriving DecidableEq

/-- The scripts' BATCH_SIZE constant (migrate_all_data.py line 21); the
run functions below take the batch size as a parameter bs, and main
instantiates it with this constant. -/
def BATCH_SIZE : Nat := 10000

/-- SELECT COUNT(star) FROM spectra on the source. -/
def sqliteSpectraCount (src : SQLiteDb) : Nat := src.spectra.length

/-- speed IS NOT NULL AND speed > 0 on a source marker. -/
def srcSpeedPos (m : SQLiteMarker) : Bool :=
  match m.speed with
  | Option.none => false
  | some v => decide (0 < v)

/-- SELECT COUNT(star) FROM markers WHERE speed IS NOT NULL AND speed > 0
on the source. -/
def sqliteMarkersSpeedCount (src : SQLiteDb) : Nat :=
  (src.markers.filter srcSpeedPos).length

/-- SELECT COUNT(star) FROM spectra on the target. -/
def pgSpectraCount (tgt : PGDb) : Nat := tgt.spectra.length

/-- speed IS NOT NULL AND speed > 0 on a target marker. -/
def tgtSpeedPos (m : PGMarker) : Bool :=
  match m.speed with
  | Option.none => false
  | some v => decide (0 < v)

/-- SELECT COUNT(star) FROM markers WHERE speed IS NOT NULL AND speed > 0
on the target. -/
def pgMarkersSpeedCount (tgt : PGDb) : Nat :=
  (tgt.markers.filter tgtSpeedPos).length

/-- spectra_to_migrate = sqlite_spectra_count - pg_spectra_count
(migrate_all_data.py line 109). -/
def spectraToMigrate (src : SQLiteDb) (tgt : PGDb) : Int :=
  (sqliteSpectraCount src : Int) - (pgSpectraCount tgt : Int)

/-- speed_to_migrate = sqlite_markers_speed - pg_markers_speed
(migrate_all_data.py line 110). -/
def speedToMigrate (src : SQLiteDb) (tgt : PGDb) : Int :=
  (sqliteMarkersSpeedCount src : Int) - (pgMarkersSpeedCount tgt : Int)

/-- The ORDER BY id of the source spectra fetch. -/
def sortedSpectra (src : SQLiteDb) : List SpectrumRow :=
  src.spectra.insertionSort (fun a b => a.id ≤ b.id)

/-- Models datetime.fromtimestamp: epoch seconds to the platform's LOCAL
calendar time, represented as naive seconds (epoch plus the platform
timezone offset tz). -/
def datetimeFromtimestamp (tz : Int) (epoch : Int) : Int := epoch + tz

/-- The tuple built for the INSERT INTO spectra: every column is passed
through raw (channels included), except created_at which goes through
datetime.fromtimestamp. -/
def convertSpectrumRow (tz : Int) (s : SpectrumRow) : SpectrumRow :=
  { s with created_at := datetimeFromtimestamp tz s.created_at }

/-- SELECT id FROM spectra WHERE id = i on the target (the existence
check before each insert). -/
def spectrumExists (tgt : PGDb) (i : Nat) : Bool :=
  tgt.spectra.any (fun r => r.id == i)

/-- One iteration of the insert loop: skip if the id already exists,
otherwise INSERT the converted row. -/
def insertSpectrumStep (tz : Int) (tgt : PGDb) (s : SpectrumRow) : PGDb :=
  if spectrumExists tgt s.id then tgt
  else { tgt with spectra := tgt.spectra ++ [convertSpectrumRow tz s] }

/-- The whole insert loop over the fetched source rows. -/
def insertSpectraRows (tz : Int) (rows : List SpectrumRow) (tgt : PGDb) : PGDb :=
  rows.foldl (insertSpectrumStep tz) tgt

/-- SELECT id FROM markers WHERE has_spectrum = 1 on the source. -/
def flaggedMarkerIds (src : SQLiteDb) : List Nat :=
  (src.markers.filter (fun m => m.has_spectrum == 1)).map (fun m => m.id)

/-- The effect on one marker row of UPDATE markers SET
has_spectrum = true WHERE id = i AND has_spectrum = false. -/
def setFlagMarker (i : Nat) (m : PGMarker) : PGMarker :=
  if m.id == i && m.has_spectrum == false then { m with has_spectrum := true } else m

/-- UPDATE markers SET has_spectrum = true WHERE id = i AND
has_spectrum = false (migrate_all_data.py, guarded form). -/
def setFlagStep (tgt : PGDb) (i : Nat) : PGDb :=
  { tgt with markers := tgt.markers.map (setFlagMarker i) }

/-- The [2/3] flag phase of migrate_all_data.py. -/
def updateMarkerFlags (src : SQLiteDb) (tgt : PGDb) : PGDb :=
  (flaggedMarkerIds src).foldl setFlagStep tgt

/-- The effect on one marker row of UPDATE markers SET
has_spectrum = true WHERE id = i (unguarded). -/
def setFlagMarkerU (i : Nat) (m : PGMarker) : PGMarker :=
  if m.id == i then { m with has_spectrum := true } else m

/-- UPDATE markers SET has_spectrum = true WHERE id = i
(migrate_spectra.py, unguarded form). -/
def setFlagStepU (tgt : PGDb) (i : Nat) : PGDb :=
  { tgt with markers := tgt.markers.map (setFlagMarkerU i) }

/-- The flag update loop of migrate_spectra.py. -/
def updateMarkerFlagsU (src : SQLiteDb) (tgt : PGDb) : PGDb :=
  (flaggedMarkerIds src).foldl setFlagStepU tgt

/-- The source rows feeding the speed phase: SELECT id, speed FROM
markers WHERE speed IS NOT NULL AND speed > 0 ORDER BY id. -/
def speedRows (src : SQLiteDb) : List (Nat × Int) :=
  ((src.markers.filter srcSpeedPos).insertionSort (fun a b => a.id ≤ b.id)).map
    (fun m => (m.id, m.speed.getD 0))

/-- The guard of the batched speed UPDATE: m.speed IS NULL OR
m.speed = 0. -/
def speedGuard (m : PGMarker) : Bool :=
  match m.speed with
  | Option.none => true
  | some v => v == 0

/-- The effect of one batched UPDATE ... FROM (VALUES ...) on one target
marker: the row of the VALUES list whose id matches (at most one, ids
being the source primary key) supplies the new speed, subject to the
guard. -/
def applyBatchToMarker (b : List (Nat × Int)) (m : PGMarker) : PGMarker :=
  match b.find? (fun p => p.1 == m.id) with
  | some p => if speedGuard m then { m with speed := some p.2 } else m
  | Option.none => m

/-- One batch transaction of the speed phase (one execute_values plus its
commit). -/
def applyBatch (tgt : PGDb) (b : List (Nat × Int)) : PGDb :=
  { tgt with markers := tgt.markers.map (applyBatchToMarker b) }

/-- The while loop of the speed phase: each batch commits independently. -/
def applySpeedBatches (bs : List (List (Nat × Int))) (tgt : PGDb) : PGDb :=
  bs.foldl applyBatch tgt

/-- Fuel-driven chunking; fuel at least the list length makes it total. -/
def toBatchesF {α : Type} : Nat → Nat → List α → List (List α)
  | _, _, [] => []
  | 0, _, _ :: _ => []
  | fuel+1, n, x :: xs =>
      if n == 0 then []
      else ((x :: xs).take n) :: toBatchesF fuel n ((x :: xs).drop n)

/-- The LIMIT n OFFSET k*n pagination of the speed phase over the fixed,
ordered source result set: consecutive chunks of size n (a batch size of
0 fetches nothing and the loop breaks at once). -/
def toBatches {α : Type} (n : Nat) (l : List α) : List (List α) :=
  toBatchesF l.length n l

/-- The three gated migration phases of migrate_all_data.main, in
program order: the count-gated spectra insert, the always-run flag
update, and the count-gated batched speed update. -/
def migrationPhases (tz : Int) (bs : Nat) (src : SQLiteDb) (tgt : PGDb) : PGDb :=
  let t1 := if 0 < spectraToMigrate src tgt
    then insertSpectraRows tz (sortedSpectra src) tgt else tgt
  let t2 := updateMarkerFlags src t1
  if 0 < speedToMigrate src tgt
    then applySpeedBatches (toBatches bs (speedRows src)) t2 else t2

/-- As migrationPhases, but the speed phase stops after exactly k batch
transactions have committed (the interruption point of the batch
resumability property). -/
def migrationPhasesStoppedAt (tz : Int) (bs k : Nat) (src : SQLiteDb) (tgt : PGDb) : PGDb :=
  let t1 := if 0 < spectraToMigrate src tgt
    then insertSpectraRows tz (sortedSpectra src) tgt else tgt
  let t2 := updateMarkerFlags src t1
  if 0 < speedToMigrate src tgt
    then applySpeedBatches ((toBatches bs (speedRows src)).take k) t2 else t2

/-- One complete run of migrate_all_data.main, parameterized by the
platform timezone offset tz, the batch size bs (main uses BATCH_SIZE),
and the two interactive answers.  Early exits (nothing to migrate, or a
no answer) leave the target unchanged. -/
def migrateAllData (tz : Int) (bs : Nat) (src : SQLiteDb) (tgt : PGDb)
    (recheckYes continueYes : Bool) : PGDb :=
  if sqliteSpectraCount src = 0 ∧ sqliteMarkersSpeedCount src = 0 then tgt
  else if spectraToMigrate src tgt ≤ 0 ∧ speedToMigrate src tgt ≤ 0 ∧ recheckYes = false then tgt
  else if continueYes = false then tgt
  else migrationPhases tz bs src tgt

/-- A run of migrate_all_data.main whose speed phase is killed after
exactly k batch transactions have committed (k at or past the number of
batches is the uninterrupted run). -/
def migrateAllDataStoppedAt (tz : Int) (bs : Nat) (k : Nat) (src : SQLiteDb) (tgt : PGDb)
    (recheckYes continueYes : Bool) : PGDb :=
  if sqliteSpectraCount src = 0 ∧ sqliteMarkersSpeedCount src = 0 then tgt
  else if spectraToMigrate src tgt ≤ 0 ∧ speedToMigrate src tgt ≤ 0 ∧ recheckYes = false then tgt
  else if continueYes = false then tgt
  else migrationPhasesStoppedAt tz bs k src tgt

/-- One complete run of migrate_spectra.main: inserts and the unguarded
flag updates share a single transaction. -/
def migrateSpectra (tz : Int) (src : SQLiteDb) (tgt : PGDb) (confirmYes : Bool) : PGDb :=
  if sqliteSpectraCount src = 0 then tgt
  else if confirmYes = false then tgt
  else updateMarkerFlagsU src (insertSpectraRows tz (sortedSpectra src) tgt)

/-- The channels conversion of update_spectra_columns.py: a text value
goes through json.loads (failure means the row is skipped), NULL stays
NULL, anything else is passed through. -/
def parseChannels (jsonLoads : String → Option (List Int)) : PyVal → Option PyVal
  | PyVal.str s => (jsonLoads s).map PyVal.lst
  | PyVal.null => some PyVal.null
  | PyVal.lst xs => some (PyVal.lst xs)

/-- The effect on one target spectra row of UPDATE spectra SET the six
scalar columns WHERE id = r.id, with ch the already converted channels
value. -/
def updRowOne (r : SpectrumRow) (ch : PyVal) (w : SpectrumRow) : SpectrumRow :=
  if w.id == r.id then
    { w with
      channels := ch
      channel_count := r.channel_count
      energy_min_kev := r.energy_min_kev
      energy_max_kev := r.energy_max_kev
      live_time_sec := r.live_time_sec
      real_time_sec := r.real_time_sec }
  else w

/-- One iteration of the update loop of update_spectra_columns.py: on a
parse failure the row is skipped, otherwise UPDATE spectra SET the six
scalar columns WHERE id = r.id, with no guard on the current target
values. -/
def updRowStep (jsonLoads : String → Option (List Int)) (tgt : PGDb) (r : SpectrumRow) : PGDb :=
  match parseChannels jsonLoads r.channels with
  | Option.none => tgt
  | some ch =>
      { tgt with spectra := tgt.spectra.map (updRowOne r ch) }

/-- SELECT ... FROM spectra WHERE channels IS NOT NULL ORDER BY id on the
source. -/
def nonNullChannelRows (src : SQLiteDb) : List SpectrumRow :=
  ((src.spectra.filter (fun r => !(r.channels == PyVal.null))).insertionSort
    (fun a b => a.id ≤ b.id))

/-- One complete run of update_spectra_columns.main: exits untouched when
no target row has NULL channels, otherwise updates every fetched source
row into the target inside one transaction. -/
def updateSpectraColumnsRun (jsonLoads : String → Option (List Int))
    (src : SQLiteDb) (tgt : PGDb) (confirmYes : Bool) : PGDb :=
  if (tgt.spectra.filter (fun r => r.channels == PyVal.null)).length = 0 then tgt
  else if confirmYes = false then tgt
  else (nonNullChannelRows src).foldl (updRowStep jsonLoads) tgt

/-!
Error-injected runs, for the failure-semantics claims.  Every PostgreSQL
operation inside a try block may raise; the oracle err says whether the
n-th such operation (counted through the run) raises.  A raised error
reaches the except handler, which rolls the in-flight transaction back
(the committed state is kept, the pending work is lost) and exits with
code 1; an error-free operation commits nothing by itself, only the
explicit commit points do.
-/

/-- The per-row work of the spectra insert loop with error injection:
the state threaded is the pending (uncommitted) transaction state. -/
def insertRowsE (err : Nat → Bool) (tz : Int) :
    List SpectrumRow → PGDb → Nat → Except Unit (PGDb × Nat)
  | [], t, n => Except.ok (t, n)
  | s :: rest, t, n =>
      if err n then Except.error ()
      else insertRowsE err tz rest (insertSpectrumStep tz t s) (n + 1)

/-- The [1/3] insert phase of migrate_all_data.py with error injection:
the loop body followed by the phase commit (itself a fallible
operation). -/
def insertPhaseE (err : Nat → Bool) (tz : Int) (rows : List SpectrumRow)
    (t : PGDb) (n : Nat) : Except Unit (PGDb × Nat) :=
  match insertRowsE err tz rows t n with
  | Except.error e => Except.error e
  | Except.ok (t2, n2) => if err n2 then Except.error () else Except.ok (t2, n2 + 1)

/-- The per-marker work of the guarded flag loop with error injection. -/
def flagRowsE (err : Nat → Bool) :
    List Nat → PGDb → Nat → Except Unit (PGDb × Nat)
  | [], t, n => Except.ok (t, n)
  | i :: rest, t, n =>
      if err n then Except.error ()
      else flagRowsE err rest (setFlagStep t i) (n + 1)

/-- The [2/3] flag phase of migrate_all_data.py with error injection. -/
def flagPhaseE (err : Nat → Bool) (ids : List Nat) (t : PGDb) (n : Nat) :
    Except Unit (PGDb × Nat) :=
  match flagRowsE err ids t n with
  | Except.error e => Except.error e
  | Except.ok (t2, n2) => if err n2 then Except.error () else Except.ok (t2, n2 + 1)

/-- The batched speed phase with error injection.  Each batch is one
transaction (execute_values plus commit, one fallible operation); a
failing batch is rolled back, the previously committed batches stay.
Returns the committed state, the op counter, and whether an error was
raised. -/
def speedBatchesE (err : Nat → Bool) :
    List (List (Nat × Int)) → PGDb → Nat → PGDb × Nat × Bool
  | [], t, n => (t, n, false)
  | b :: rest, t, n =>
      if err n then (t, n, true)
      else speedBatchesE err rest (applyBatch t b) (n + 1)

/-- migrate_all_data.main with error injection: each except handler
rolls back to the state committed at its transaction's start and exits
with code 1.  Returns the final committed target state and the exit
code. -/
def migrateAllDataE (err : Nat → Bool) (tz : Int) (bs : Nat)
    (src : SQLiteDb) (tgt : PGDb) (recheckYes continueYes : Bool) : PGDb × Nat :=
  if sqliteSpectraCount src = 0 ∧ sqliteMarkersSpeedCount src = 0 then (tgt, 0)
  else if spectraToMigrate src tgt ≤ 0 ∧ speedToMigrate src tgt ≤ 0 ∧ recheckYes = false then
    (tgt, 0)
  else if continueYes = false then (tgt, 0)
  else
    match (if 0 < spectraToMigrate src tgt
      then insertPhaseE err tz (sortedSpectra src) tgt 0
      else Except.ok (tgt, 0)) with
    | Except.error _ => (tgt, 1)
    | Except.ok (t1, n1) =>
      match flagPhaseE err (flaggedMarkerIds src) t1 n1 with
      | Except.error _ => (t1, 1)
      | Except.ok (t2, n2) =>
        if 0 < speedToMigrate src tgt then
          let r := speedBatchesE err (toBatches bs (speedRows src)) t2 n2
          if r.2.2 then (r.1, 1) else (r.1, 0)
        else (t2, 0)

/-- The per-marker work of the unguarded flag loop of migrate_spectra.py
with error injection. -/
def flagRowsEU (err : Nat → Bool) :
    List Nat → PGDb → Nat → Except Unit (PGDb × Nat)
  | [], t, n => Except.ok (t, n)
  | i :: rest, t, n =>
      if err n then Except.error ()
      else flagRowsEU err rest (setFlagStepU t i) (n + 1)

/-- migrate_spectra.main with error injection: the inserts, the flag
updates and the final commit share one transaction, so any error rolls
the whole run back to the initial target state and exits with code 1. -/
def migrateSpectraE (err : Nat → Bool) (tz : Int)
    (src : SQLiteDb) (tgt : PGDb) (confirmYes : Bool) : PGDb × Nat :=
  if sqliteSpectraCount src = 0 then (tgt, 0)
  else if confirmYes = false then (tgt, 0)
  else
    match insertRowsE err tz (sortedSpectra src) tgt 0 with
    | Except.error _ => (tgt, 1)
    | Except.ok (t1, n1) =>
      match flagRowsEU err (flaggedMarkerIds src) t1 n1 with
      | Except.error _ => (tgt, 1)
      | Except.ok (t2, n2) => if err n2 then (tgt, 1) else (t2, 0)

/-!
Helper lemmas.  The phase loops are foldl over the target database whose
steps are List.map of per-row functions; the lemmas below normalize each
phase to a single map of a per-row fold, after which every claim reduces
to per-row case analysis.
-/

theorem list_map_id_of_mem {α : Type} {l : List α} {f : α → α}
    (h : ∀ x ∈ l, f x = x) : l.map f = l := by
  induction l with
  | nil => rfl
  | cons x xs ih =>
      simp only [List.map_cons, h x (by simp), ih (fun y hy => h y (by simp [hy]))]

/-- Per-marker result of running the whole guarded flag loop. -/
def flagAll (ids : List Nat) (m : PGMarker) : PGMarker :=
  if m.id ∈ ids then { m with has_spectrum := true } else m

theorem flagAll_of_setFlagMarker (i : Nat) (ids : List Nat) (m : PGMarker) :
    flagAll ids (setFlagMarker i m) = flagAll (i :: ids) m := by
  obtain ⟨j, f, sp⟩ := m
  by_cases hji : j = i
  · subst hji
    cases f <;> simp [flagAll, setFlagMarker]
  · cases f <;> simp [flagAll, setFlagMarker, hji]

theorem flagAll_of_setFlagMarkerU (i : Nat) (ids : List Nat) (m : PGMarker) :
    flagAll ids (setFlagMarkerU i m) = flagAll (i :: ids) m := by
  obtain ⟨j, f, sp⟩ := m
  by_cases hji : j = i
  · subst hji
    cases f <;> simp [flagAll, setFlagMarkerU]
  · cases f <;> simp [flagAll, setFlagMarkerU, hji]

theorem foldl_setFlagStep_eq_map (ids : List Nat) (t : PGDb) :
    ids.foldl setFlagStep t = { t with markers := t.markers.map (flagAll ids) } := by
  induction ids generalizing t with
  | nil =>
      simp only [List.foldl_nil]
      have : t.markers.map (flagAll []) = t.markers :=
        list_map_id_of_mem (fun m _ => by simp [flagAll])
      rw [this]
  | cons i ids ih =>
      simp only [List.foldl_cons, ih, setFlagStep, List.map_map]
      have : (flagAll ids ∘ setFlagMarker i) = flagAll (i :: ids) := by
        funext m; exact flagAll_of_setFlagMarker i ids m
      rw [this]

theorem foldl_setFlagStepU_eq_map (ids : List Nat) (t : PGDb) :
    ids.foldl setFlagStepU t = { t with markers := t.markers.map (flagAll ids) } := by
  induction ids generalizing t with
  | nil =>
      simp only [List.foldl_nil]
      have : t.markers.map (flagAll []) = t.markers :=
        list_map_id_of_mem (fun m _ => by simp [flagAll])
      rw [this]
  | cons i ids ih =>
      simp only [List.foldl_cons, ih, setFlagStepU, List.map_map]
      have : (flagAll ids ∘ setFlagMarkerU i) = flagAll (i :: ids) := by
        funext m; exact flagAll_of_setFlagMarkerU i ids m
      rw [this]

theorem updateMarkerFlags_eq_map (src : SQLiteDb) (t : PGDb) :
    updateMarkerFlags src t =
      { t with markers := t.markers.map (flagAll (flaggedMarkerIds src)) } :=
  foldl_setFlagStep_eq_map _ t

theorem updateMarkerFlagsU_eq_map (src : SQLiteDb) (t : PGDb) :
    updateMarkerFlagsU src t =
      { t with markers := t.markers.map (flagAll (flaggedMarkerIds src)) } :=
  foldl_setFlagStepU_eq_map _ t

theorem flagAll_id (ids : List Nat) (m : PGMarker) : (flagAll ids m).id = m.id := by
  unfold flagAll; split <;> rfl

theorem flagAll_speed (ids : List Nat) (m : PGMarker) : (flagAll ids m).speed = m.speed := by
  unfold flagAll; split <;> rfl

theorem flagAll_sets (ids : List Nat) (m : PGMarker) (h : m.id ∈ ids) :
    (flagAll ids m).has_spectrum = true := by
  unfold flagAll; simp [h]

theorem flagAll_mono (ids : List Nat) (m : PGMarker) (h : m.has_spectrum = true) :
    (flagAll ids m).has_spectrum = true := by
  unfold flagAll; split <;> simp [h]

theorem flagAll_eq_self (ids : List Nat) (m : PGMarker)
    (h : m.id ∈ ids → m.has_spectrum = true) : flagAll ids m = m := by
  obtain ⟨j, f, sp⟩ := m
  unfold flagAll
  split
  · rename_i hm
    have := h hm
    simp at this
    simp [this]
  · rfl

/-- The effect of a single (id, speed) VALUES row on one target marker
(the unit into which the batched UPDATE decomposes). -/
def applyPairToMarker (p : Nat × Int) (m : PGMarker) : PGMarker :=
  if p.1 == m.id && speedGuard m then { m with speed := some p.2 } else m

/-- Per-marker result of a sequence of (id, speed) VALUES rows. -/
def speedFold (ps : List (Nat × Int)) (m : PGMarker) : PGMarker :=
  ps.foldl (fun m p => applyPairToMarker p m) m

theorem speedFold_nil (m : PGMarker) : speedFold [] m = m := rfl

theorem speedFold_cons (p : Nat × Int) (ps : List (Nat × Int)) (m : PGMarker) :
    speedFold (p :: ps) m = speedFold ps (applyPairToMarker p m) := rfl

theorem speedFold_append (a b : List (Nat × Int)) (m : PGMarker) :
    speedFold (a ++ b) m = speedFold b (speedFold a m) :=
  List.foldl_append ..

theorem applyPairToMarker_id (p : Nat × Int) (m : PGMarker) :
    (applyPairToMarker p m).id = m.id := by
  unfold applyPairToMarker; split <;> rfl

theorem applyPairToMarker_flag (p : Nat × Int) (m : PGMarker) :
    (applyPairToMarker p m).has_spectrum = m.has_spectrum := by
  unfold applyPairToMarker; split <;> rfl

theorem applyPairToMarker_of_guard_false (p : Nat × Int) (m : PGMarker)
    (h : speedGuard m = false) : applyPairToMarker p m = m := by
  unfold applyPairToMarker
  rw [h]
  simp

theorem speedFold_id (ps : List (Nat × Int)) (m : PGMarker) :
    (speedFold ps m).id = m.id := by
  induction ps generalizing m with
  | nil => rfl
  | cons p ps ih => rw [speedFold_cons, ih, applyPairToMarker_id]

theorem speedFold_flag (ps : List (Nat × Int)) (m : PGMarker) :
    (speedFold ps m).has_spectrum = m.has_spectrum := by
  induction ps generalizing m with
  | nil => rfl
  | cons p ps ih => rw [speedFold_cons, ih, applyPairToMarker_flag]

theorem speedFold_of_guard_false (ps : List (Nat × Int)) (m : PGMarker)
    (h : speedGuard m = false) : speedFold ps m = m := by
  induction ps with
  | nil => rfl
  | cons p ps ih => rw [speedFold_cons, applyPairToMarker_of_guard_false p m h, ih]

theorem speedGuard_set_false (m : PGMarker) (v : Int) (hv : v ≠ 0) :
    speedGuard { m with speed := some v } = false := by
  simp [speedGuard, hv]

theorem speedFold_idem (ps : List (Nat × Int)) (hpos : ∀ p ∈ ps, p.2 ≠ 0)
    (m : PGMarker) : speedFold ps (speedFold ps m) = speedFold ps m := by
  induction ps generalizing m with
  | nil => rfl
  | cons p ps ih =>
      have hp : p.2 ≠ 0 := hpos p (by simp)
      have hps : ∀ q ∈ ps, q.2 ≠ 0 := fun q hq => hpos q (by simp [hq])
      by_cases hmatch : (p.1 == m.id && speedGuard m) = true
      · have hstep : applyPairToMarker p m = { m with speed := some p.2 } := by
          unfold applyPairToMarker; rw [hmatch]; simp
        have hgf : speedGuard { m with speed := some p.2 } = false :=
          speedGuard_set_false m p.2 hp
        simp only [speedFold_cons, hstep]
        rw [speedFold_of_guard_false ps _ hgf, applyPairToMarker_of_guard_false p _ hgf,
          speedFold_of_guard_false ps _ hgf]
      · have hm0 : (p.1 == m.id && speedGuard m) = false := by
          cases h : (p.1 == m.id && speedGuard m)
          · rfl
          · exact absurd h hmatch
        have hstep : applyPairToMarker p m = m := by
          unfold applyPairToMarker; rw [hm0]; simp
        simp only [speedFold_cons, hstep]
        by_cases hid : (p.1 == m.id) = true
        · have hg : speedGuard m = false := by
            rw [hid] at hm0
            simpa using hm0
          rw [speedFold_of_guard_false ps m hg, hstep, speedFold_of_guard_false ps m hg]
        · have hid' : (p.1 == m.id) = false := by
            cases h : (p.1 == m.id)
            · rfl
            · exact absurd h hid
          have hstep2 : applyPairToMarker p (speedFold ps m) = speedFold ps m := by
            unfold applyPairToMarker
            have : (p.1 == (speedFold ps m).id) = false := by
              rw [speedFold_id ps m]; exact hid'
            rw [this]
            simp
          rw [hstep2]
          exact ih hps m

theorem applyBatchToMarker_eq_speedFold (b : List (Nat × Int))
    (hpos : ∀ p ∈ b, p.2 ≠ 0) (m : PGMarker) :
    applyBatchToMarker b m = speedFold b m := by
  induction b generalizing m with
  | nil => rfl
  | cons p ps ih =>
      have hp : p.2 ≠ 0 := hpos p (by simp)
      have hps : ∀ q ∈ ps, q.2 ≠ 0 := fun q hq => hpos q (by simp [hq])
      by_cases hid : (p.1 == m.id) = true
      · by_cases hg : speedGuard m = true
        · have hgf : speedGuard { m with speed := some p.2 } = false :=
            speedGuard_set_false m p.2 hp
          rw [speedFold_cons]
          have hstep : applyPairToMarker p m = { m with speed := some p.2 } := by
            unfold applyPairToMarker; rw [hid, hg]; simp
          rw [hstep, speedFold_of_guard_false ps _ hgf]
          unfold applyBatchToMarker
          simp only [List.find?_cons, hid]
          rw [hg]
          simp
        · have hg' : speedGuard m = false := by
            cases h : speedGuard m
            · rfl
            · exact absurd h hg
          rw [speedFold_cons, applyPairToMarker_of_guard_false p m hg',
            speedFold_of_guard_false ps m hg']
          unfold applyBatchToMarker
          simp only [List.find?_cons, hid]
          rw [hg']
          simp
      · have hid' : (p.1 == m.id) = false := by
          cases h : (p.1 == m.id)
          · rfl
          · exact absurd h hid
        have hstep : applyPairToMarker p m = m := by
          unfold applyPairToMarker; rw [hid']; simp
        rw [speedFold_cons, hstep, ← ih hps m]
        unfold applyBatchToMarker
        simp only [List.find?_cons, hid']

theorem applyBatch_markers (t : PGDb) (b : List (Nat × Int)) :
    (applyBatch t b).markers = t.markers.map (applyBatchToMarker b) := rfl

theorem applyBatch_spectra (t : PGDb) (b : List (Nat × Int)) :
    (applyBatch t b).spectra = t.spectra := rfl

theorem applySpeedBatches_spectra (bs : List (List (Nat × Int))) (t : PGDb) :
    (applySpeedBatches bs t).spectra = t.spectra := by
  induction bs generalizing t with
  | nil => rfl
  | cons b bs ih => simpa [applySpeedBatches, List.foldl_cons] using ih (applyBatch t b)

theorem applySpeedBatches_eq_map (bs : List (List (Nat × Int)))
    (hpos : ∀ b ∈ bs, ∀ p ∈ b, p.2 ≠ 0) (t : PGDb) :
    applySpeedBatches bs t = { t with markers := t.markers.map (speedFold bs.flatten) } := by
  induction bs generalizing t with
  | nil =>
      simp only [applySpeedBatches, List.foldl_nil, List.flatten_nil]
      have h0 : t.markers.map (speedFold []) = t.markers :=
        list_map_id_of_mem (fun m _ => rfl)
      rw [h0]
  | cons b bs ih =>
      have hb : ∀ p ∈ b, p.2 ≠ 0 := hpos b (by simp)
      have hbs : ∀ c ∈ bs, ∀ p ∈ c, p.2 ≠ 0 := fun c hc => hpos c (by simp [hc])
      have h1 : applySpeedBatches (b :: bs) t = applySpeedBatches bs (applyBatch t b) := rfl
      rw [h1, ih hbs]
      have h2 : (applyBatch t b).markers.map (speedFold bs.flatten)
          = t.markers.map (speedFold (b :: bs).flatten) := by
        rw [applyBatch_markers, List.map_map]
        apply List.map_congr_left
        intro m _
        have h3 : applyBatchToMarker b m = speedFold b m := applyBatchToMarker_eq_speedFold b hb m
        simp only [Function.comp_apply, h3, List.flatten_cons]
        rw [← speedFold_append]
      rw [applyBatch_spectra] at *
      rw [h2]

theorem toBatchesF_join {α : Type} (fuel n : Nat) (l : List α)
    (hfuel : l.length ≤ fuel) (hn : 0 < n) : (toBatchesF fuel n l).flatten = l := by
  induction fuel generalizing l with
  | zero =>
      have : l = [] := List.length_eq_zero.mp (Nat.le_zero.mp hfuel)
      subst this
      rfl
  | succ fuel ih =>
      cases l with
      | nil => rfl
      | cons x xs =>
          have hn' : (n == 0) = false := by
            cases n
            · exact absurd hn (by simp)
            · rfl
          simp only [toBatchesF, hn', Bool.false_eq_true, if_false, List.flatten_cons]
          have hlen : ((x :: xs).drop n).length ≤ fuel := by
            rw [List.length_drop]
            have h1 : (x :: xs).length ≤ fuel + 1 := hfuel
            have h2 : 1 ≤ n := hn
            omega
          rw [ih _ hlen, List.take_append_drop]

theorem toBatches_join {α : Type} (n : Nat) (l : List α) (hn : 0 < n) :
    (toBatches n l).flatten = l :=
  toBatchesF_join l.length n l (Nat.le_refl _) hn

theorem toBatches_zero {α : Type} (l : List α) : toBatches 0 l = [] := by
  cases l <;> rfl

theorem mem_toBatches_join {α : Type} (n : Nat) (l : List α) (p : α)
    (h : p ∈ (toBatches n l).flatten) : p ∈ l := by
  cases n with
  | zero => rw [toBatches_zero] at h; simp at h
  | succ n => rwa [toBatches_join _ l (Nat.succ_pos n)] at h

theorem speedRows_pos (src : SQLiteDb) : ∀ p ∈ speedRows src, 0 < p.2 := by
  intro p hp
  unfold speedRows at hp
  rw [List.mem_map] at hp
  obtain ⟨m, hm, hpm⟩ := hp
  rw [List.mem_insertionSort] at hm
  have := List.of_mem_filter hm
  unfold srcSpeedPos at this
  subst hpm
  cases hsp : m.speed with
  | none => rw [hsp] at this; simp at this
  | some v =>
      rw [hsp] at this
      simp only [decide_eq_true_eq] at this
      simpa [hsp] using this

theorem toBatches_speedRows_pos (src : SQLiteDb) (bs : Nat) :
    ∀ b ∈ toBatches bs (speedRows src), ∀ p ∈ b, p.2 ≠ 0 := by
  intro b hb p hp
  have : p ∈ (toBatches bs (speedRows src)).flatten := by
    rw [List.mem_flatten]
    exact ⟨b, hb, hp⟩
  have := speedRows_pos src p (mem_toBatches_join _ _ p this)
  omega

theorem insertSpectraRows_nil (tz : Int) (t : PGDb) : insertSpectraRows tz [] t = t := rfl

theorem insertSpectraRows_cons (tz : Int) (s : SpectrumRow) (rows : List SpectrumRow)
    (t : PGDb) :
    insertSpectraRows tz (s :: rows) t = insertSpectraRows tz rows (insertSpectrumStep tz t s) :=
  rfl

theorem insertSpectrumStep_markers (tz : Int) (t : PGDb) (s : SpectrumRow) :
    (insertSpectrumStep tz t s).markers = t.markers := by
  unfold insertSpectrumStep; split <;> rfl

theorem insertSpectraRows_markers (tz : Int) (rows : List SpectrumRow) (t : PGDb) :
    (insertSpectraRows tz rows t).markers = t.markers := by
  induction rows generalizing t with
  | nil => rfl
  | cons s rows ih =>
      rw [insertSpectraRows_cons, ih, insertSpectrumStep_markers]

theorem mem_spectra_insertSpectrumStep (tz : Int) (t : PGDb) (s : SpectrumRow)
    (r : SpectrumRow) (h : r ∈ t.spectra) : r ∈ (insertSpectrumStep tz t s).spectra := by
  unfold insertSpectrumStep
  split
  · exact h
  · simp [h]

theorem mem_spectra_insertSpectraRows (tz : Int) (rows : List SpectrumRow) (t : PGDb)
    (r : SpectrumRow) (h : r ∈ t.spectra) : r ∈ (insertSpectraRows tz rows t).spectra := by
  induction rows generalizing t with
  | nil => exact h
  | cons s rows ih =>
      rw [insertSpectraRows_cons]
      exact ih _ (mem_spectra_insertSpectrumStep tz t s r h)

theorem spectrumExists_iff (t : PGDb) (i : Nat) :
    spectrumExists t i = true ↔ ∃ r ∈ t.spectra, r.id = i := by
  unfold spectrumExists
  rw [List.any_eq_true]
  constructor
  · rintro ⟨r, hr, he⟩
    exact ⟨r, hr, by simpa using he⟩
  · rintro ⟨r, hr, he⟩
    exact ⟨r, hr, by simpa using he⟩

theorem spectrumExists_insertSpectraRows_mono (tz : Int) (rows : List SpectrumRow)
    (t : PGDb) (i : Nat) (h : spectrumExists t i = true) :
    spectrumExists (insertSpectraRows tz rows t) i = true := by
  rw [spectrumExists_iff] at h ⊢
  obtain ⟨r, hr, he⟩ := h
  exact ⟨r, mem_spectra_insertSpectraRows tz rows t r hr, he⟩

theorem spectrumExists_of_mem_rows (tz : Int) (rows : List SpectrumRow) (t : PGDb)
    (s : SpectrumRow) (h : s ∈ rows) :
    spectrumExists (insertSpectraRows tz rows t) s.id = true := by
  induction rows generalizing t with
  | nil => simp at h
  | cons a rows ih =>
      rw [insertSpectraRows_cons]
      rcases List.mem_cons.mp h with he | hm
      · subst he
        apply spectrumExists_insertSpectraRows_mono
        unfold insertSpectrumStep
        split
        · assumption
        · rw [spectrumExists_iff]
          refine ⟨convertSpectrumRow tz s, by simp, rfl⟩
      · exact ih _ hm

theorem insertSpectraRows_eq_self (tz : Int) (rows : List SpectrumRow) (t : PGDb)
    (h : ∀ s ∈ rows, spectrumExists t s.id = true) : insertSpectraRows tz rows t = t := by
  induction rows generalizing t with
  | nil => rfl
  | cons a rows ih =>
      rw [insertSpectraRows_cons]
      have ha : insertSpectrumStep tz t a = t := by
        unfold insertSpectrumStep
        rw [h a (by simp)]
        simp
      rw [ha]
      exact ih _ (fun s hs => h s (by simp [hs]))

theorem insertSpectraRows_inserted (tz : Int) (rows : List SpectrumRow) (t : PGDb)
    (hnd : (rows.map (fun s => s.id)).Nodup) (s : SpectrumRow) (hs : s ∈ rows)
    (habs : spectrumExists t s.id = false) :
    convertSpectrumRow tz s ∈ (insertSpectraRows tz rows t).spectra := by
  induction rows generalizing t with
  | nil => simp at hs
  | cons a rows ih =>
      rw [insertSpectraRows_cons]
      rcases List.mem_cons.mp hs with he | hm
      · subst he
        have hstep : insertSpectrumStep tz t s
            = { t with spectra := t.spectra ++ [convertSpectrumRow tz s] } := by
          unfold insertSpectrumStep
          rw [habs]
          simp
        rw [hstep]
        exact mem_spectra_insertSpectraRows tz rows _ _ (by simp)
      · have hnd' : (rows.map (fun s => s.id)).Nodup := (List.nodup_cons.mp hnd).2
        have haid : a.id ∉ rows.map (fun s => s.id) := (List.nodup_cons.mp hnd).1
        have hne : s.id ≠ a.id := by
          intro he
          exact haid (he ▸ List.mem_map_of_mem (fun s => s.id) hm)
        have habs' : spectrumExists (insertSpectrumStep tz t a) s.id = false := by
          unfold insertSpectrumStep
          split
          · exact habs
          · cases hx : spectrumExists { t with spectra := t.spectra ++ [convertSpectrumRow tz a] } s.id
            · rfl
            · exfalso
              rw [spectrumExists_iff] at hx
              obtain ⟨r, hr, he⟩ := hx
              simp only [List.mem_append, List.mem_singleton] at hr
              rcases hr with hr | hr
              · have : spectrumExists t s.id = true := by
                  rw [spectrumExists_iff]; exact ⟨r, hr, he⟩
                rw [this] at habs; cases habs
              · subst hr
                exact hne (by simpa [convertSpectrumRow] using he.symm)
        exact ih _ hnd' hm habs'

theorem updateMarkerFlags_spectra (src : SQLiteDb) (t : PGDb) :
    (updateMarkerFlags src t).spectra = t.spectra := by
  rw [updateMarkerFlags_eq_map]

theorem updateMarkerFlagsU_spectra (src : SQLiteDb) (t : PGDb) :
    (updateMarkerFlagsU src t).spectra = t.spectra := by
  rw [updateMarkerFlagsU_eq_map]

theorem length_filter_map_eq {α : Type} (p : α → Bool) (f : α → α)
    (hf : ∀ a, p (f a) = p a) (l : List α) :
    (List.filter p (l.map f)).length = (List.filter p l).length := by
  induction l with
  | nil => rfl
  | cons a l ih =>
      simp only [List.map_cons, List.filter_cons, hf a]
      cases h : p a <;> simp [ih]

theorem tgtSpeedPos_flagAll (ids : List Nat) (m : PGMarker) :
    tgtSpeedPos (flagAll ids m) = tgtSpeedPos m := by
  unfold tgtSpeedPos
  rw [flagAll_speed]

theorem pgMarkersSpeedCount_updateMarkerFlags (src : SQLiteDb) (t : PGDb) :
    pgMarkersSpeedCount (updateMarkerFlags src t) = pgMarkersSpeedCount t := by
  rw [updateMarkerFlags_eq_map]
  unfold pgMarkersSpeedCount
  exact length_filter_map_eq tgtSpeedPos _ (tgtSpeedPos_flagAll _) t.markers

theorem pgSpectraCount_updateMarkerFlags (src : SQLiteDb) (t : PGDb) :
    pgSpectraCount (updateMarkerFlags src t) = pgSpectraCount t := by
  unfold pgSpectraCount
  rw [updateMarkerFlags_spectra]

theorem pgSpectraCount_applySpeedBatches (bs : List (List (Nat × Int))) (t : PGDb) :
    pgSpectraCount (applySpeedBatches bs t) = pgSpectraCount t := by
  unfold pgSpectraCount
  rw [applySpeedBatches_spectra]

/-- An error-free pass of the insert loop computes exactly the pure
insert loop. -/
theorem insertRowsE_ok (err : Nat → Bool) (tz : Int) (rows : List SpectrumRow)
    (t : PGDb) (n : Nat) (t' : PGDb) (n' : Nat)
    (h : insertRowsE err tz rows t n = Except.ok (t', n')) :
    t' = insertSpectraRows tz rows t := by
  induction rows generalizing t n with
  | nil =>
      unfold insertRowsE at h
      simp only [Except.ok.injEq, Prod.mk.injEq] at h
      rw [← h.1]
      rfl
  | cons s rows ih =>
      unfold insertRowsE at h
      by_cases he : err n = true
      · rw [he] at h; simp at h
      · have he' : err n = false := by
          cases hx : err n
          · rfl
          · exact absurd hx he
        rw [he'] at h
        simp only [Bool.false_eq_true, if_false] at h
        rw [insertSpectraRows_cons]
        exact ih _ _ h

/-- An error-free pass of the guarded flag loop computes exactly the
pure flag loop. -/
theorem flagRowsE_ok (err : Nat → Bool) (ids : List Nat)
    (t : PGDb) (n : Nat) (t' : PGDb) (n' : Nat)
    (h : flagRowsE err ids t n = Except.ok (t', n')) :
    t' = ids.foldl setFlagStep t := by
  induction ids generalizing t n with
  | nil =>
      unfold flagRowsE at h
      simp only [Except.ok.injEq, Prod.mk.injEq] at h
      rw [← h.1]
      rfl
  | cons i ids ih =>
      unfold flagRowsE at h
      by_cases he : err n = true
      · rw [he] at h; simp at h
      · have he' : err n = false := by
          cases hx : err n
          · rfl
          · exact absurd hx he
        rw [he'] at h
        simp only [Bool.false_eq_true, if_false] at h
        rw [List.foldl_cons]
        exact ih _ _ h

/-- An error-free pass of the unguarded flag loop computes exactly the
pure flag loop. -/
theorem flagRowsEU_ok (err : Nat → Bool) (ids : List Nat)
    (t : PGDb) (n : Nat) (t' : PGDb) (n' : Nat)
    (h : flagRowsEU err ids t n = Except.ok (t', n')) :
    t' = ids.foldl setFlagStepU t := by
  induction ids generalizing t n with
  | nil =>
      unfold flagRowsEU at h
      simp only [Except.ok.injEq, Prod.mk.injEq] at h
      rw [← h.1]
      rfl
  | cons i ids ih =>
      unfold flagRowsEU at h
      by_cases he : err n = true
      · rw [he] at h; simp at h
      · have he' : err n = false := by
          cases hx : err n
          · rfl
          · exact absurd hx he
        rw [he'] at h
        simp only [Bool.false_eq_true, if_false] at h
        rw [List.foldl_cons]
        exact ih _ _ h

/-- The committed state of the error-injected speed phase is always a
batch boundary: the first j batches fully applied; and an error-free
pass applies them all. -/
theorem speedBatchesE_spec (err : Nat → Bool) (bs : List (List (Nat × Int)))
    (t : PGDb) (n : Nat) :
    ∃ j, j ≤ bs.length ∧
      (speedBatchesE err bs t n).1 = applySpeedBatches (bs.take j) t ∧
      ((speedBatchesE err bs t n).2.2 = false →
        (speedBatchesE err bs t n).1 = applySpeedBatches bs t) := by
  induction bs generalizing t n with
  | nil =>
      exact ⟨0, by simp, rfl, fun _ => rfl⟩
  | cons b bs ih =>
      by_cases he : err n = true
      · refine ⟨0, by simp, ?_, ?_⟩
        · unfold speedBatchesE
          rw [he]
          simp [applySpeedBatches]
        · unfold speedBatchesE
          rw [he]
          intro hc
          simp at hc
      · have he' : err n = false := by
          cases hx : err n
          · rfl
          · exact absurd hx he
        obtain ⟨j, hj, hst, hok⟩ := ih (applyBatch t b) (n + 1)
        refine ⟨j + 1, by simpa using hj, ?_, ?_⟩
        · unfold speedBatchesE
          rw [he']
          simp only [Bool.false_eq_true, if_false]
          rw [hst]
          rfl
        · unfold speedBatchesE
          rw [he']
          simp only [Bool.false_eq_true, if_false]
          intro hc
          rw [hok hc]
          rfl

/-- Per-target-row result of the whole update loop of
update_spectra_columns.py. -/
def updFoldRow (jsonLoads : String → Option (List Int)) (rows : List SpectrumRow)
    (w : SpectrumRow) : SpectrumRow :=
  rows.foldl (fun w r =>
    match parseChannels jsonLoads r.channels with
    | Option.none => w
    | some ch => updRowOne r ch w) w

theorem updRowOne_id (r : SpectrumRow) (ch : PyVal) (w : SpectrumRow) :
    (updRowOne r ch w).id = w.id := by
  unfold updRowOne; split <;> rfl

theorem foldl_updRowStep_eq_map (jsonLoads : String → Option (List Int))
    (rows : List SpectrumRow) (t : PGDb) :
    rows.foldl (updRowStep jsonLoads) t
      = { t with spectra := t.spectra.map (updFoldRow jsonLoads rows) } := by
  induction rows generalizing t with
  | nil =>
      simp only [List.foldl_nil]
      have h0 : t.spectra.map (updFoldRow jsonLoads []) = t.spectra :=
        list_map_id_of_mem (fun w _ => rfl)
      rw [h0]
  | cons r rows ih =>
      simp only [List.foldl_cons]
      rw [ih]
      unfold updRowStep
      cases hc : parseChannels jsonLoads r.channels with
      | none =>
          have hpt : ∀ w ∈ t.spectra,
              updFoldRow jsonLoads (r :: rows) w = updFoldRow jsonLoads rows w := by
            intro w _
            unfold updFoldRow
            rw [List.foldl_cons, hc]
          rw [List.map_congr_left hpt]
      | some ch =>
          simp only [List.map_map]
          have hpt : ∀ w ∈ t.spectra,
              (updFoldRow jsonLoads rows ∘ updRowOne r ch) w
                = updFoldRow jsonLoads (r :: rows) w := by
            intro w _
            unfold updFoldRow
            rw [List.foldl_cons, hc]
            rfl
          rw [List.map_congr_left hpt]

theorem updateSpectraColumnsRun_eq_map (jsonLoads : String → Option (List Int))
    (src : SQLiteDb) (tgt : PGDb)
    (hnull : (tgt.spectra.filter (fun r => r.channels == PyVal.null)).length ≠ 0) :
    updateSpectraColumnsRun jsonLoads src tgt true
      = { tgt with spectra :=
          tgt.spectra.map (updFoldRow jsonLoads (nonNullChannelRows src)) } := by
  unfold updateSpectraColumnsRun
  rw [if_neg hnull]
  simp only [Bool.true_eq_false, if_false]
  exact foldl_updRowStep_eq_map jsonLoads _ tgt

theorem updFoldRow_no_match (jsonLoads : String → Option (List Int))
    (rows : List SpectrumRow) (w : SpectrumRow)
    (h : ∀ r ∈ rows, r.id = w.id → parseChannels jsonLoads r.channels = Option.none) :
    updFoldRow jsonLoads rows w = w := by
  induction rows with
  | nil => rfl
  | cons a rows ih =>
      unfold updFoldRow
      rw [List.foldl_cons]
      cases hc : parseChannels jsonLoads a.channels with
      | none => exact ih (fun r hr => h r (by simp [hr]))
      | some ch =>
          have hne : a.id ≠ w.id := by
            intro he
            rw [h a (by simp) he] at hc
            cases hc
          have hne2 : w.id ≠ a.id := fun he => hne he.symm
          have hstep : updRowOne a ch w = w := by
            unfold updRowOne
            rw [beq_eq_false_iff_ne.mpr hne2]
            simp
          simp only [hstep]
          exact ih (fun r hr => h r (by simp [hr]))

theorem updFoldRow_set (jsonLoads : String → Option (List Int))
    (rows : List SpectrumRow) (w : SpectrumRow) (r : SpectrumRow) (ch : PyVal)
    (hnd : (rows.map (fun s => s.id)).Nodup) (hr : r ∈ rows)
    (hch : parseChannels jsonLoads r.channels = some ch) (hid : w.id = r.id) :
    updFoldRow jsonLoads rows w = updRowOne r ch w := by
  induction rows with
  | nil => simp at hr
  | cons a rows ih =>
      have hnd' : (rows.map (fun s => s.id)).Nodup := (List.nodup_cons.mp hnd).2
      have haid : a.id ∉ rows.map (fun s => s.id) := (List.nodup_cons.mp hnd).1
      rcases List.mem_cons.mp hr with he | hm
      · subst he
        unfold updFoldRow
        rw [List.foldl_cons, hch]
        have hafter : ∀ q ∈ rows, q.id = (updRowOne r ch w).id
            → parseChannels jsonLoads q.channels = Option.none := by
          intro q hq hqid
          exfalso
          rw [updRowOne_id, hid] at hqid
          exact haid (hqid ▸ List.mem_map_of_mem (fun s => s.id) hq)
        exact updFoldRow_no_match jsonLoads rows _ hafter
      · have hne : a.id ≠ w.id := by
          intro he
          rw [hid] at he
          exact haid (he ▸ List.mem_map_of_mem (fun s => s.id) hm)
        have hne2 : w.id ≠ a.id := fun he => hne he.symm
        unfold updFoldRow
        rw [List.foldl_cons]
        cases hc : parseChannels jsonLoads a.channels with
        | none => exact ih hnd' hm
        | some ch' =>
            have hstep : updRowOne a ch' w = w := by
              unfold updRowOne
              rw [beq_eq_false_iff_ne.mpr hne2]
              simp
            simp only [hstep]
            exact ih hnd' hm

theorem convertSpectrumRow_id (tz : Int) (s : SpectrumRow) :
    (convertSpectrumRow tz s).id = s.id := rfl

theorem convertSpectrumRow_marker_id (tz : Int) (s : SpectrumRow) :
    (convertSpectrumRow tz s).marker_id = s.marker_id := rfl

theorem convertSpectrumRow_channels (tz : Int) (s : SpectrumRow) :
    (convertSpectrumRow tz s).channels = s.channels := rfl

theorem convertSpectrumRow_created_at (tz : Int) (s : SpectrumRow) :
    (convertSpectrumRow tz s).created_at = s.created_at + tz := rfl

theorem nodup_sortedSpectra (src : SQLiteDb)
    (h : (src.spectra.map (fun s => s.id)).Nodup) :
    ((sortedSpectra src).map (fun s => s.id)).Nodup := by
  unfold sortedSpectra
  have hperm : List.Perm (src.spectra.insertionSort (fun a b => a.id ≤ b.id)) src.spectra :=
    List.perm_insertionSort _ _
  exact ((hperm.map (fun s => s.id)).nodup_iff).mpr h

theorem nodup_nonNullChannelRows (src : SQLiteDb)
    (h : (src.spectra.map (fun s => s.id)).Nodup) :
    ((nonNullChannelRows src).map (fun s => s.id)).Nodup := by
  unfold nonNullChannelRows
  have hperm : List.Perm ((src.spectra.filter (fun r => !(r.channels == PyVal.null))).insertionSort
      (fun a b => a.id ≤ b.id)) (src.spectra.filter (fun r => !(r.channels == PyVal.null))) :=
    List.perm_insertionSort _ _
  apply ((hperm.map (fun s => s.id)).nodup_iff).mpr
  have hsub : List.Sublist (src.spectra.filter (fun r => !(r.channels == PyVal.null)))
      src.spectra := List.filter_sublist _
  exact h.sublist (hsub.map (fun s => s.id))

theorem mem_nonNullChannelRows (src : SQLiteDb) (r : SpectrumRow)
    (hr : r ∈ src.spectra) (hch : r.channels ≠ PyVal.null) :
    r ∈ nonNullChannelRows src := by
  unfold nonNullChannelRows
  rw [List.mem_insertionSort, List.mem_filter]
  exact ⟨hr, by simpa using hch⟩

theorem nodup_speedRows_fst (src : SQLiteDb)
    (h : (src.markers.map (fun m => m.id)).Nodup) :
    ((speedRows src).map Prod.fst).Nodup := by
  unfold speedRows
  rw [List.map_map]
  have hcomp : (Prod.fst ∘ fun m : SQLiteMarker => (m.id, m.speed.getD 0))
      = fun m : SQLiteMarker => m.id := rfl
  rw [hcomp]
  have hperm : List.Perm ((src.markers.filter srcSpeedPos).insertionSort (fun a b => a.id ≤ b.id))
      (src.markers.filter srcSpeedPos) := List.perm_insertionSort _ _
  apply ((hperm.map (fun m => m.id)).nodup_iff).mpr
  have hsub : List.Sublist (src.markers.filter srcSpeedPos) src.markers :=
    List.filter_sublist _
  exact h.sublist (hsub.map (fun m => m.id))

theorem mem_speedRows (src : SQLiteDb) (m : SQLiteMarker) (v : Int)
    (hm : m ∈ src.markers) (hv : m.speed = some v) (hvpos : 0 < v) :
    (m.id, v) ∈ speedRows src := by
  unfold speedRows
  rw [List.mem_map]
  refine ⟨m, ?_, by simp [hv]⟩
  rw [List.mem_insertionSort, List.mem_filter]
  refine ⟨hm, ?_⟩
  unfold srcSpeedPos
  rw [hv]
  simpa using hvpos

theorem mem_flaggedMarkerIds (src : SQLiteDb) (m : SQLiteMarker)
    (hm : m ∈ src.markers) (hf : m.has_spectrum = 1) :
    m.id ∈ flaggedMarkerIds src := by
  unfold flaggedMarkerIds
  rw [List.mem_map]
  refine ⟨m, ?_, rfl⟩
  rw [List.mem_filter]
  exact ⟨hm, by simp [hf]⟩

theorem speedGuard_flagAll (ids : List Nat) (m : PGMarker) :
    speedGuard (flagAll ids m) = speedGuard m := by
  unfold speedGuard
  rw [flagAll_speed]

/-- If the unique VALUES row carrying an id matches an unset marker,
the fold stores exactly that row's speed. -/
theorem speedFold_set (ps : List (Nat × Int)) (hpos : ∀ p ∈ ps, 0 < p.2)
    (hnd : (ps.map Prod.fst).Nodup) (i : Nat) (v : Int) (hmem : (i, v) ∈ ps)
    (m : PGMarker) (hid : m.id = i) (hg : speedGuard m = true) :
    speedFold ps m = { m with speed := some v } := by
  induction ps with
  | nil => simp at hmem
  | cons p ps ih =>
      have hnd' : (ps.map Prod.fst).Nodup := (List.nodup_cons.mp hnd).2
      have hpfst : p.1 ∉ ps.map Prod.fst := (List.nodup_cons.mp hnd).1
      by_cases hpi : p.1 = i
      · have hpv : p = (i, v) := by
          rcases List.mem_cons.mp hmem with he | hm2
          · exact he.symm
          · exfalso
            apply hpfst
            rw [hpi]
            exact List.mem_map_of_mem Prod.fst hm2
        have hv0 : v ≠ 0 := by
          have := hpos p (by simp)
          rw [hpv] at this
          omega
        rw [speedFold_cons]
        have hstep : applyPairToMarker p m = { m with speed := some v } := by
          unfold applyPairToMarker
          rw [hpv]
          have : ((i, v).1 == m.id) = true := by simp [hid]
          rw [this, hg]
          simp
        rw [hstep]
        exact speedFold_of_guard_false ps _ (speedGuard_set_false m v hv0)
      · have hmem' : (i, v) ∈ ps := by
          rcases List.mem_cons.mp hmem with he | hm2
          · exfalso; apply hpi; rw [← he]
          · exact hm2
        have hpos' : ∀ q ∈ ps, 0 < q.2 := fun q hq => hpos q (by simp [hq])
        rw [speedFold_cons]
        have hstep : applyPairToMarker p m = m := by
          unfold applyPairToMarker
          have : (p.1 == m.id) = false := by
            rw [hid]
            exact beq_eq_false_iff_ne.mpr hpi
          rw [this]
          simp
        rw [hstep]
        exact ih hpos' hnd' hmem'

theorem flagAll_idem (ids : List Nat) (m : PGMarker) :
    flagAll ids (flagAll ids m) = flagAll ids m := by
  obtain ⟨j, f, sp⟩ := m
  unfold flagAll
  by_cases hj : j ∈ ids <;> simp [hj]

theorem forall2_map_self {α : Type} (P : α → α → Prop) (f : α → α) (l : List α)
    (h : ∀ a ∈ l, P a (f a)) : List.Forall₂ P l (l.map f) := by
  induction l with
  | nil => exact List.Forall₂.nil
  | cons a l ih =>
      exact List.Forall₂.cons (h a (by simp)) (ih (fun x hx => h x (by simp [hx])))

theorem forall2_refl_self {α : Type} (P : α → α → Prop) (l : List α)
    (h : ∀ a ∈ l, P a a) : List.Forall₂ P l l := by
  induction l with
  | nil => exact List.Forall₂.nil
  | cons a l ih =>
      exact List.Forall₂.cons (h a (by simp)) (ih (fun x hx => h x (by simp [hx])))

theorem spectrumExists_congr (t t' : PGDb) (h : t.spectra = t'.spectra) (i : Nat) :
    spectrumExists t i = spectrumExists t' i := by
  unfold spectrumExists
  rw [h]

theorem pgMarkersSpeedCount_congr (t t' : PGDb) (h : t.markers = t'.markers) :
    pgMarkersSpeedCount t = pgMarkersSpeedCount t' := by
  unfold pgMarkersSpeedCount
  rw [h]

theorem updateMarkerFlags_eq_self (src : SQLiteDb) (t : PGDb)
    (h : ∀ m ∈ t.markers, m.id ∈ flaggedMarkerIds src → m.has_spectrum = true) :
    updateMarkerFlags src t = t := by
  rw [updateMarkerFlags_eq_map]
  have h0 : t.markers.map (flagAll (flaggedMarkerIds src)) = t.markers :=
    list_map_id_of_mem (fun m hm => flagAll_eq_self _ m (h m hm))
  rw [h0]

theorem flags_true_after_updateMarkerFlags (src : SQLiteDb) (t : PGDb) :
    ∀ m ∈ (updateMarkerFlags src t).markers,
      m.id ∈ flaggedMarkerIds src → m.has_spectrum = true := by
  rw [updateMarkerFlags_eq_map]
  intro m hm hid
  simp only [List.mem_map] at hm
  obtain ⟨m0, _, hm0⟩ := hm
  subst hm0
  rw [flagAll_id] at hid
  exact flagAll_sets _ m0 hid

theorem PGDb_ext (t t' : PGDb) (h1 : t.markers = t'.markers)
    (h2 : t.spectra = t'.spectra) : t = t' := by
  cases t
  cases t'
  simp only at h1 h2
  rw [h1, h2]

theorem flatten_toBatches_speedRows_pos (src : SQLiteDb) (bs : Nat) :
    ∀ p ∈ (toBatches bs (speedRows src)).flatten, p.2 ≠ 0 := by
  intro p hp
  have := speedRows_pos src p (mem_toBatches_join bs (speedRows src) p hp)
  omega

/-- Every run of migrate_all_data either leaves the target untouched
(early exit or a cancelled prompt) or performs the three gated phases. -/
theorem migrateAllData_cases (tz : Int) (bs : Nat) (src : SQLiteDb) (tgt : PGDb)
    (ra ca : Bool) :
    migrateAllData tz bs src tgt ra ca = tgt ∨
    migrateAllData tz bs src tgt ra ca = migrationPhases tz bs src tgt := by
  unfold migrateAllData
  split
  · exact Or.inl rfl
  · split
    · exact Or.inl rfl
    · split
      · exact Or.inl rfl
      · exact Or.inr rfl

theorem migrateAllData_yes (tz : Int) (bs : Nat) (src : SQLiteDb) (tgt : PGDb)
    (h : ¬(sqliteSpectraCount src = 0 ∧ sqliteMarkersSpeedCount src = 0)) :
    migrateAllData tz bs src tgt true true = migrationPhases tz bs src tgt := by
  unfold migrateAllData
  rw [if_neg h]
  have h2 : ¬(spectraToMigrate src tgt ≤ 0 ∧ speedToMigrate src tgt ≤ 0
      ∧ (true : Bool) = false) := by
    rintro ⟨-, -, hc⟩
    cases hc
  rw [if_neg h2]
  have h3 : ¬((true : Bool) = false) := by intro hc; cases hc
  rw [if_neg h3]

theorem migrateAllDataStoppedAt_yes (tz : Int) (bs k : Nat) (src : SQLiteDb) (tgt : PGDb)
    (h : ¬(sqliteSpectraCount src = 0 ∧ sqliteMarkersSpeedCount src = 0)) :
    migrateAllDataStoppedAt tz bs k src tgt true true
      = migrationPhasesStoppedAt tz bs k src tgt := by
  unfold migrateAllDataStoppedAt
  rw [if_neg h]
  have h2 : ¬(spectraToMigrate src tgt ≤ 0 ∧ speedToMigrate src tgt ≤ 0
      ∧ (true : Bool) = false) := by
    rintro ⟨-, -, hc⟩
    cases hc
  rw [if_neg h2]
  have h3 : ¬((true : Bool) = false) := by intro hc; cases hc
  rw [if_neg h3]

theorem migrateSpectra_cases (tz : Int) (src : SQLiteDb) (tgt : PGDb) (c : Bool) :
    migrateSpectra tz src tgt c = tgt ∨
    migrateSpectra tz src tgt c
      = updateMarkerFlagsU src (insertSpectraRows tz (sortedSpectra src) tgt) := by
  unfold migrateSpectra
  split
  · exact Or.inl rfl
  · split
    · exact Or.inl rfl
    · exact Or.inr rfl

theorem migrateSpectra_yes (tz : Int) (src : SQLiteDb) (tgt : PGDb)
    (h : sqliteSpectraCount src ≠ 0) :
    migrateSpectra tz src tgt true
      = updateMarkerFlagsU src (insertSpectraRows tz (sortedSpectra src) tgt) := by
  unfold migrateSpectra
  rw [if_neg h]
  have h3 : ¬((true : Bool) = false) := by intro hc; cases hc
  rw [if_neg h3]

theorem migrationPhases_spectra (tz : Int) (bs : Nat) (src : SQLiteDb) (tgt : PGDb) :
    (migrationPhases tz bs src tgt).spectra
      = (if 0 < spectraToMigrate src tgt
          then insertSpectraRows tz (sortedSpectra src) tgt else tgt).spectra := by
  unfold migrationPhases
  dsimp only
  split <;> split <;>
    simp only [applySpeedBatches_spectra, updateMarkerFlags_spectra]

theorem t1_markers (tz : Int) (src : SQLiteDb) (tgt : PGDb) :
    (if 0 < spectraToMigrate src tgt
      then insertSpectraRows tz (sortedSpectra src) tgt else tgt).markers = tgt.markers := by
  split
  · exact insertSpectraRows_markers ..
  · rfl

theorem migrationPhases_markers_pos (tz : Int) (bs : Nat) (src : SQLiteDb) (tgt : PGDb)
    (h : 0 < speedToMigrate src tgt) :
    (migrationPhases tz bs src tgt).markers
      = tgt.markers.map (fun m =>
          speedFold (toBatches bs (speedRows src)).flatten
            (flagAll (flaggedMarkerIds src) m)) := by
  unfold migrationPhases
  rw [if_pos h]
  rw [applySpeedBatches_eq_map _ (toBatches_speedRows_pos src bs),
    updateMarkerFlags_eq_map]
  simp only [List.map_map, t1_markers]
  rfl

theorem migrationPhases_markers_nonpos (tz : Int) (bs : Nat) (src : SQLiteDb) (tgt : PGDb)
    (h : ¬0 < speedToMigrate src tgt) :
    (migrationPhases tz bs src tgt).markers
      = tgt.markers.map (flagAll (flaggedMarkerIds src)) := by
  unfold migrationPhases
  rw [if_neg h]
  rw [updateMarkerFlags_eq_map]
  simp only [t1_markers]

/-- Running the three phases a second time changes nothing. -/
theorem migrationPhases_idem (tz : Int) (bs : Nat) (src : SQLiteDb) (tgt : PGDb) :
    migrationPhases tz bs src (migrationPhases tz bs src tgt)
      = migrationPhases tz bs src tgt := by
  set T := migrationPhases tz bs src tgt with hT
  have hspectraT : T.spectra = (if 0 < spectraToMigrate src tgt
      then insertSpectraRows tz (sortedSpectra src) tgt else tgt).spectra := by
    rw [hT]
    exact migrationPhases_spectra ..
  have ht1' : (if 0 < spectraToMigrate src T
      then insertSpectraRows tz (sortedSpectra src) T else T) = T := by
    by_cases h : 0 < spectraToMigrate src tgt
    · have hall : ∀ s ∈ sortedSpectra src, spectrumExists T s.id = true := by
        intro s hs
        have h1 : spectrumExists (insertSpectraRows tz (sortedSpectra src) tgt) s.id = true :=
          spectrumExists_of_mem_rows tz _ tgt s hs
        have h2 : spectrumExists T s.id
            = spectrumExists (insertSpectraRows tz (sortedSpectra src) tgt) s.id := by
          apply spectrumExists_congr
          rw [hspectraT, if_pos h]
        rw [h2]
        exact h1
      have hins : insertSpectraRows tz (sortedSpectra src) T = T :=
        insertSpectraRows_eq_self _ _ _ hall
      split
      · exact hins
      · rfl
    · have hsp : T.spectra = tgt.spectra := by rw [hspectraT, if_neg h]
      have hstm : spectraToMigrate src T = spectraToMigrate src tgt := by
        unfold spectraToMigrate pgSpectraCount
        rw [hsp]
      rw [hstm, if_neg h]
  have hflags : updateMarkerFlags src T = T := by
    apply updateMarkerFlags_eq_self
    intro m hm hid
    by_cases hsp : 0 < speedToMigrate src tgt
    · rw [hT, migrationPhases_markers_pos tz bs src tgt hsp] at hm
      obtain ⟨m0, _, rfl⟩ := List.mem_map.mp hm
      rw [speedFold_flag]
      apply flagAll_sets
      rwa [speedFold_id, flagAll_id] at hid
    · rw [hT, migrationPhases_markers_nonpos tz bs src tgt hsp] at hm
      obtain ⟨m0, _, rfl⟩ := List.mem_map.mp hm
      apply flagAll_sets
      rwa [flagAll_id] at hid
  show migrationPhases tz bs src T = T
  unfold migrationPhases
  dsimp only
  rw [ht1', hflags]
  by_cases hsp : 0 < speedToMigrate src tgt
  · by_cases hsp2 : 0 < speedToMigrate src T
    · rw [if_pos hsp2]
      rw [applySpeedBatches_eq_map _ (toBatches_speedRows_pos src bs)]
      apply PGDb_ext
      · show T.markers.map (speedFold (toBatches bs (speedRows src)).flatten) = T.markers
        rw [hT, migrationPhases_markers_pos tz bs src tgt hsp, List.map_map]
        apply List.map_congr_left
        intro m _
        show speedFold (toBatches bs (speedRows src)).flatten
            (speedFold (toBatches bs (speedRows src)).flatten
              (flagAll (flaggedMarkerIds src) m))
          = speedFold (toBatches bs (speedRows src)).flatten
              (flagAll (flaggedMarkerIds src) m)
        exact speedFold_idem _ (flatten_toBatches_speedRows_pos src bs) _
      · rfl
    · rw [if_neg hsp2]
  · have hcount : pgMarkersSpeedCount T = pgMarkersSpeedCount tgt := by
      unfold pgMarkersSpeedCount
      rw [hT, migrationPhases_markers_nonpos tz bs src tgt hsp]
      exact length_filter_map_eq tgtSpeedPos _ (tgtSpeedPos_flagAll _) tgt.markers
    have hsp2 : ¬0 < speedToMigrate src T := by
      unfold speedToMigrate at hsp ⊢
      rw [hcount]
      exact hsp
    rw [if_neg hsp2]

/-- Running the single-transaction body of migrate_spectra a second time
changes nothing. -/
theorem migrateSpectraCore_idem (tz : Int) (src : SQLiteDb) (tgt : PGDb) :
    updateMarkerFlagsU src (insertSpectraRows tz (sortedSpectra src)
        (updateMarkerFlagsU src (insertSpectraRows tz (sortedSpectra src) tgt)))
      = updateMarkerFlagsU src (insertSpectraRows tz (sortedSpectra src) tgt) := by
  set S := updateMarkerFlagsU src (insertSpectraRows tz (sortedSpectra src) tgt) with hS
  have hins : insertSpectraRows tz (sortedSpectra src) S = S := by
    apply insertSpectraRows_eq_self
    intro s hs
    have h1 : spectrumExists (insertSpectraRows tz (sortedSpectra src) tgt) s.id = true :=
      spectrumExists_of_mem_rows tz _ tgt s hs
    have h2 : spectrumExists S s.id
        = spectrumExists (insertSpectraRows tz (sortedSpectra src) tgt) s.id := by
      apply spectrumExists_congr
      rw [hS, updateMarkerFlagsU_spectra]
    rw [h2]
    exact h1
  rw [hins]
  rw [updateMarkerFlagsU_eq_map]
  apply PGDb_ext
  · show S.markers.map (flagAll (flaggedMarkerIds src)) = S.markers
    rw [hS, updateMarkerFlagsU_eq_map]
    show ((insertSpectraRows tz (sortedSpectra src) tgt).markers.map
        (flagAll (flaggedMarkerIds src))).map (flagAll (flaggedMarkerIds src))
      = (insertSpectraRows tz (sortedSpectra src) tgt).markers.map
        (flagAll (flaggedMarkerIds src))
    rw [List.map_map]
    apply List.map_congr_left
    intro m _
    exact flagAll_idem _ m
  · rfl

theorem migrationPhasesStoppedAt_spectra (tz : Int) (bs k : Nat) (src : SQLiteDb)
    (tgt : PGDb) :
    (migrationPhasesStoppedAt tz bs k src tgt).spectra
      = (if 0 < spectraToMigrate src tgt
          then insertSpectraRows tz (sortedSpectra src) tgt else tgt).spectra := by
  unfold migrationPhasesStoppedAt
  dsimp only
  split <;> split <;>
    simp only [applySpeedBatches_spectra, updateMarkerFlags_spectra]

theorem take_toBatches_speedRows_pos (src : SQLiteDb) (bs k : Nat) :
    ∀ b ∈ (toBatches bs (speedRows src)).take k, ∀ p ∈ b, p.2 ≠ 0 := by
  intro b hb
  exact toBatches_speedRows_pos src bs b (List.take_subset k _ hb)

theorem take_flatten_toBatches_speedRows_pos (src : SQLiteDb) (bs k : Nat) :
    ∀ p ∈ ((toBatches bs (speedRows src)).take k).flatten, p.2 ≠ 0 := by
  intro p hp
  rw [List.mem_flatten] at hp
  obtain ⟨b, hb, hpb⟩ := hp
  exact take_toBatches_speedRows_pos src bs k b hb p hpb

theorem migrationPhasesStoppedAt_markers_pos (tz : Int) (bs k : Nat) (src : SQLiteDb)
    (tgt : PGDb) (h : 0 < speedToMigrate src tgt) :
    (migrationPhasesStoppedAt tz bs k src tgt).markers
      = tgt.markers.map (fun m =>
          speedFold ((toBatches bs (speedRows src)).take k).flatten
            (flagAll (flaggedMarkerIds src) m)) := by
  unfold migrationPhasesStoppedAt
  dsimp only
  rw [if_pos h]
  rw [applySpeedBatches_eq_map _ (take_toBatches_speedRows_pos src bs k),
    updateMarkerFlags_eq_map]
  simp only [List.map_map, t1_markers]
  rfl

/-- Re-running the insert phase against a state that already went through
it (or against an unchanged spectra table when the phase was skipped) is
a no-op. -/
theorem insertGate_noop (tz : Int) (src : SQLiteDb) (tgt T : PGDb)
    (hspectra : T.spectra = (if 0 < spectraToMigrate src tgt
      then insertSpectraRows tz (sortedSpectra src) tgt else tgt).spectra) :
    (if 0 < spectraToMigrate src T
      then insertSpectraRows tz (sortedSpectra src) T else T) = T := by
  by_cases h : 0 < spectraToMigrate src tgt
  · have hall : ∀ s ∈ sortedSpectra src, spectrumExists T s.id = true := by
      intro s hs
      have h1 : spectrumExists (insertSpectraRows tz (sortedSpectra src) tgt) s.id = true :=
        spectrumExists_of_mem_rows tz _ tgt s hs
      have h2 : spectrumExists T s.id
          = spectrumExists (insertSpectraRows tz (sortedSpectra src) tgt) s.id := by
        apply spectrumExists_congr
        rw [hspectra, if_pos h]
      rw [h2]
      exact h1
    have hins : insertSpectraRows tz (sortedSpectra src) T = T :=
      insertSpectraRows_eq_self _ _ _ hall
    split
    · exact hins
    · rfl
  · have hsp : T.spectra = tgt.spectra := by rw [hspectra, if_neg h]
    have hstm : spectraToMigrate src T = spectraToMigrate src tgt := by
      unfold spectraToMigrate pgSpectraCount
      rw [hsp]
    rw [hstm, if_neg h]

/-- Core of the amended resumability property: when the speed gate still
passes at re-run time, re-running the whole program from the interrupted
state reaches the uninterrupted final state. -/
theorem resumeStoppedRun (tz : Int) (bs k : Nat) (src : SQLiteDb) (tgt : PGDb)
    (hgate1 : 0 < speedToMigrate src tgt)
    (hgate2 : 0 < speedToMigrate src (migrationPhasesStoppedAt tz bs k src tgt)) :
    migrationPhases tz bs src (migrationPhasesStoppedAt tz bs k src tgt)
      = migrationPhases tz bs src tgt := by
  set I := migrationPhasesStoppedAt tz bs k src tgt with hI
  have hspect : I.spectra = (if 0 < spectraToMigrate src tgt
      then insertSpectraRows tz (sortedSpectra src) tgt else tgt).spectra := by
    rw [hI]
    exact migrationPhasesStoppedAt_spectra ..
  have hflagsI : updateMarkerFlags src I = I := by
    apply updateMarkerFlags_eq_self
    intro m hm hid
    rw [hI, migrationPhasesStoppedAt_markers_pos tz bs k src tgt hgate1] at hm
    obtain ⟨m0, _, rfl⟩ := List.mem_map.mp hm
    rw [speedFold_flag]
    apply flagAll_sets
    rwa [speedFold_id, flagAll_id] at hid
  conv_lhs => rw [migrationPhases]
  conv_rhs => rw [migrationPhases]
  rw [insertGate_noop tz src tgt I hspect, hflagsI, if_pos hgate2, if_pos hgate1]
  apply PGDb_ext
  · rw [applySpeedBatches_eq_map _ (toBatches_speedRows_pos src bs),
      applySpeedBatches_eq_map _ (toBatches_speedRows_pos src bs)]
    show I.markers.map (speedFold (toBatches bs (speedRows src)).flatten)
      = (updateMarkerFlags src (if 0 < spectraToMigrate src tgt
          then insertSpectraRows tz (sortedSpectra src) tgt else tgt)).markers.map
            (speedFold (toBatches bs (speedRows src)).flatten)
    rw [hI, migrationPhasesStoppedAt_markers_pos tz bs k src tgt hgate1,
      updateMarkerFlags_eq_map]
    simp only [t1_markers, List.map_map]
    apply List.map_congr_left
    intro m _
    show speedFold (toBatches bs (speedRows src)).flatten
        (speedFold ((toBatches bs (speedRows src)).take k).flatten
          (flagAll (flaggedMarkerIds src) m))
      = speedFold (toBatches bs (speedRows src)).flatten
          (flagAll (flaggedMarkerIds src) m)
    rw [← speedFold_append]
    have hB : (toBatches bs (speedRows src)).flatten
        = ((toBatches bs (speedRows src)).take k).flatten
          ++ ((toBatches bs (speedRows src)).drop k).flatten := by
      rw [← List.flatten_append, List.take_append_drop]
    rw [hB]
    simp only [speedFold_append]
    rw [speedFold_idem _ (take_flatten_toBatches_speedRows_pos src bs k)]
  · rw [applySpeedBatches_spectra, applySpeedBatches_spectra, hspect,
      updateMarkerFlags_spectra]

theorem insertPhaseE_ok (err : Nat → Bool) (tz : Int) (rows : List SpectrumRow)
    (t : PGDb) (n : Nat) (t' : PGDb) (n' : Nat)
    (h : insertPhaseE err tz rows t n = Except.ok (t', n')) :
    t' = insertSpectraRows tz rows t := by
  unfold insertPhaseE at h
  cases hr : insertRowsE err tz rows t n with
  | error e => rw [hr] at h; cases h
  | ok p =>
      obtain ⟨t2, n2⟩ := p
      rw [hr] at h
      dsimp only at h
      by_cases he : err n2 = true
      · rw [he] at h; simp at h
      · have he' : err n2 = false := by
          cases hx : err n2
          · rfl
          · exact absurd hx he
        rw [he'] at h
        simp only [Bool.false_eq_true, if_false, Except.ok.injEq, Prod.mk.injEq] at h
        rw [← h.1]
        exact insertRowsE_ok err tz rows t n t2 n2 hr

theorem flagPhaseE_ok (err : Nat → Bool) (ids : List Nat)
    (t : PGDb) (n : Nat) (t' : PGDb) (n' : Nat)
    (h : flagPhaseE err ids t n = Except.ok (t', n')) :
    t' = ids.foldl setFlagStep t := by
  unfold flagPhaseE at h
  cases hr : flagRowsE err ids t n with
  | error e => rw [hr] at h; cases h
  | ok p =>
      obtain ⟨t2, n2⟩ := p
      rw [hr] at h
      dsimp only at h
      by_cases he : err n2 = true
      · rw [he] at h; simp at h
      · have he' : err n2 = false := by
          cases hx : err n2
          · rfl
          · exact absurd hx he
        rw [he'] at h
        simp only [Bool.false_eq_true, if_false, Except.ok.injEq, Prod.mk.injEq] at h
        rw [← h.1]
        exact flagRowsE_ok err ids t n t2 n2 hr

theorem migrateAllDataE_yes (err : Nat → Bool) (tz : Int) (bs : Nat)
    (src : SQLiteDb) (tgt : PGDb)
    (hne : ¬(sqliteSpectraCount src = 0 ∧ sqliteMarkersSpeedCount src = 0)) :
    migrateAllDataE err tz bs src tgt true true =
      (match (if 0 < spectraToMigrate src tgt
          then insertPhaseE err tz (sortedSpectra src) tgt 0
          else Except.ok (tgt, 0)) with
        | Except.error _ => (tgt, 1)
        | Except.ok (t1, n1) =>
          match flagPhaseE err (flaggedMarkerIds src) t1 n1 with
          | Except.error _ => (t1, 1)
          | Except.ok (t2, n2) =>
            if 0 < speedToMigrate src tgt then
              let r := speedBatchesE err (toBatches bs (speedRows src)) t2 n2
              if r.2.2 then (r.1, 1) else (r.1, 0)
            else (t2, 0)) := by
  unfold migrateAllDataE
  rw [if_neg hne]
  have h2 : ¬(spectraToMigrate src tgt ≤ 0 ∧ speedToMigrate src tgt ≤ 0
      ∧ (true : Bool) = false) := by
    rintro ⟨-, -, hc⟩
    cases hc
  rw [if_neg h2]
  have h3 : ¬((true : Bool) = false) := by intro hc; cases hc
  rw [if_neg h3]

/-- Claim C9 (amended): an error anywhere in a phase rolls back exactly
to the failing transaction's start and exits non-zero: the initial state
for the single-transaction phases (spectra insert; and the whole of
migrate_spectra), the post-insert state for the flag phase, and the last
committed batch boundary for the batch-committing speed phase; an
error-free pass computes the pure run with exit code 0. -/
theorem C9_amended_rollback (err : Nat → Bool) (tz : Int) (bs : Nat)
    (src : SQLiteDb) (tgt : PGDb) :
    (((migrateAllDataE err tz bs src tgt true true).2 ≠ 0 →
        (migrateAllDataE err tz bs src tgt true true).1 = tgt
        ∨ (migrateAllDataE err tz bs src tgt true true).1
            = (if 0 < spectraToMigrate src tgt
                then insertSpectraRows tz (sortedSpectra src) tgt else tgt)
        ∨ ∃ j, (migrateAllDataE err tz bs src tgt true true).1
            = applySpeedBatches ((toBatches bs (speedRows src)).take j)
                (updateMarkerFlags src (if 0 < spectraToMigrate src tgt
                  then insertSpectraRows tz (sortedSpectra src) tgt else tgt)))
      ∧ ((migrateAllDataE err tz bs src tgt true true).2 = 0 →
          (migrateAllDataE err tz bs src tgt true true).1
            = migrateAllData tz bs src tgt true true))
    ∧ ((migrateSpectraE err tz src tgt true).2 ≠ 0 →
        (migrateSpectraE err tz src tgt true).1 = tgt)
    ∧ ((migrateSpectraE err tz src tgt true).2 = 0 →
        (migrateSpectraE err tz src tgt true).1 = migrateSpectra tz src tgt true) := by
  refine ⟨?_, ?_⟩
  · by_cases hne : (sqliteSpectraCount src = 0 ∧ sqliteMarkersSpeedCount src = 0)
    · have hE : migrateAllDataE err tz bs src tgt true true = (tgt, 0) := by
        unfold migrateAllDataE
        rw [if_pos hne]
      have hP : migrateAllData tz bs src tgt true true = tgt := by
        unfold migrateAllData
        rw [if_pos hne]
      rw [hE, hP]
      exact ⟨fun h => absurd rfl h, fun _ => rfl⟩
    · rw [migrateAllDataE_yes err tz bs src tgt hne]
      cases hins : (if 0 < spectraToMigrate src tgt
          then insertPhaseE err tz (sortedSpectra src) tgt 0
          else Except.ok (tgt, 0)) with
      | error e0 =>
          refine ⟨fun _ => Or.inl rfl, fun h0 => ?_⟩
          simp at h0
      | ok p =>
          obtain ⟨t1, n1⟩ := p
          have ht1 : t1 = (if 0 < spectraToMigrate src tgt
              then insertSpectraRows tz (sortedSpectra src) tgt else tgt) := by
            by_cases hstm : 0 < spectraToMigrate src tgt
            · rw [if_pos hstm] at hins
              rw [if_pos hstm]
              exact insertPhaseE_ok err tz _ tgt 0 t1 n1 hins
            · rw [if_neg hstm] at hins
              rw [if_neg hstm]
              simp only [Except.ok.injEq, Prod.mk.injEq] at hins
              exact hins.1.symm
          dsimp only
          cases hflag : flagPhaseE err (flaggedMarkerIds src) t1 n1 with
          | error e0 =>
              refine ⟨fun _ => Or.inr (Or.inl ht1), fun h0 => ?_⟩
              simp at h0
          | ok q =>
              obtain ⟨t2, n2⟩ := q
              have ht2 : t2 = updateMarkerFlags src t1 :=
                flagPhaseE_ok err _ t1 n1 t2 n2 hflag
              dsimp only
              by_cases hspm : 0 < speedToMigrate src tgt
              · rw [if_pos hspm]
                obtain ⟨j, hj, hst, hok⟩ :=
                  speedBatchesE_spec err (toBatches bs (speedRows src)) t2 n2
                cases herr : (speedBatchesE err (toBatches bs (speedRows src)) t2 n2).2.2
                · simp only [herr, Bool.false_eq_true, if_false]
                  refine ⟨fun h0 => ?_, fun _ => ?_⟩
                  · simp at h0
                  · rw [hok herr, ht2, ht1, migrateAllData_yes tz bs src tgt hne]
                    unfold migrationPhases
                    dsimp only
                    rw [if_pos hspm]
                · simp only [herr, if_true]
                  refine ⟨fun _ => Or.inr (Or.inr ⟨j, ?_⟩), fun h0 => ?_⟩
                  · rw [hst, ht2, ht1]
                  · simp at h0
              · rw [if_neg hspm]
                refine ⟨fun h0 => ?_, fun _ => ?_⟩
                · simp at h0
                · rw [ht2, ht1, migrateAllData_yes tz bs src tgt hne]
                  unfold migrationPhases
                  dsimp only
                  rw [if_neg hspm]
  · by_cases hz : sqliteSpectraCount src = 0
    · have hE : migrateSpectraE err tz src tgt true = (tgt, 0) := by
        unfold migrateSpectraE
        rw [if_pos hz]
      have hP : migrateSpectra tz src tgt true = tgt := by
        unfold migrateSpectra
        rw [if_pos hz]
      rw [hE, hP]
      exact ⟨fun h => absurd rfl h, fun _ => rfl⟩
    · have h3 : ¬((true : Bool) = false) := by intro hc; cases hc
      unfold migrateSpectraE
      rw [if_neg hz, if_neg h3]
      cases hins : insertRowsE err tz (sortedSpectra src) tgt 0 with
      | error e0 =>
          refine ⟨fun _ => rfl, fun h0 => ?_⟩
          simp at h0
      | ok p =>
          obtain ⟨t1, n1⟩ := p
          dsimp only
          cases hflag : flagRowsEU err (flaggedMarkerIds src) t1 n1 with
          | error e0 =>
              refine ⟨fun _ => rfl, fun h0 => ?_⟩
              simp at h0
          | ok q =>
              obtain ⟨t2, n2⟩ := q
              dsimp only
              by_cases he : err n2 = true
              · simp only [he, if_true]
                constructor
                · intro h0
                  trivial
                · intro h0
                  simp at h0
              · have he' : err n2 = false := by
                  cases hx : err n2
                  · rfl
                  · exact absurd hx he
                simp only [he', Bool.false_eq_true, if_false]
                refine ⟨fun h0 => absurd rfl h0, fun _ => ?_⟩
                rw [migrateSpectra_yes tz src tgt hz]
                have ht1 := insertRowsE_ok err tz _ tgt 0 t1 n1 hins
                have ht2 := flagRowsEU_ok err _ t1 n1 t2 n2 hflag
                rw [ht2, ht1]
                rfl

/-- Claim C2: running the copier twice in succession, on any source and
any initial target state (and with the same interactive answers), yields
the same final target state as running it once — for the combined
migrate_all_data script and for migrate_spectra alike: the second run
inserts no duplicate spectra and changes no flag or speed the first run
established. -/
theorem C2_idempotent (tz : Int) (bs : Nat) (src : SQLiteDb) (tgt : PGDb)
    (ra ca c : Bool) :
    migrateAllData tz bs src (migrateAllData tz bs src tgt ra ca) ra ca
      = migrateAllData tz bs src tgt ra ca
    ∧ migrateSpectra tz src (migrateSpectra tz src tgt c) c
      = migrateSpectra tz src tgt c := by
  constructor
  · rcases migrateAllData_cases tz bs src tgt ra ca with h | h
    · rw [h]
      exact h
    · rw [h]
      rcases migrateAllData_cases tz bs src (migrationPhases tz bs src tgt) ra ca with h2 | h2
      · exact h2
      · rw [h2]
        exact migrationPhases_idem tz bs src tgt
  · rcases migrateSpectra_cases tz src tgt c with h | h
    · rw [h]
      exact h
    · rw [h]
      rcases migrateSpectra_cases tz src
        (updateMarkerFlagsU src (insertSpectraRows tz (sortedSpectra src) tgt)) c with h2 | h2
      · exact h2
      · rw [h2]
        exact migrateSpectraCore_idem tz src tgt

/-- Claim C10: when both pre-flight count deltas are non-positive and the
user answers yes to both prompts, the combined script still skips the
spectra-insert and speed-update phases — only the marker-flag phase
executes, leaving the spectra table and every speed value untouched —
because each phase gate re-tests the precomputed count deltas, not the
confirmation answer. -/
theorem C10_gates_retest_deltas (tz : Int) (bs : Nat) (src : SQLiteDb) (tgt : PGDb)
    (hne : ¬(sqliteSpectraCount src = 0 ∧ sqliteMarkersSpeedCount src = 0))
    (h1 : spectraToMigrate src tgt ≤ 0) (h2 : speedToMigrate src tgt ≤ 0) :
    migrateAllData tz bs src tgt true true = updateMarkerFlags src tgt
    ∧ (migrateAllData tz bs src tgt true true).spectra = tgt.spectra
    ∧ List.Forall₂ (fun a b => b.speed = a.speed) tgt.markers
        (migrateAllData tz bs src tgt true true).markers := by
  have hstm : ¬0 < spectraToMigrate src tgt := by omega
  have hspm : ¬0 < speedToMigrate src tgt := by omega
  have hrun : migrateAllData tz bs src tgt true true = updateMarkerFlags src tgt := by
    rw [migrateAllData_yes tz bs src tgt hne]
    unfold migrationPhases
    dsimp only
    rw [if_neg hstm, if_neg hspm]
  refine ⟨hrun, ?_, ?_⟩
  · rw [hrun, updateMarkerFlags_spectra]
  · rw [hrun, updateMarkerFlags_eq_map]
    exact forall2_map_self _ _ _ (fun m _ => flagAll_speed _ m)

/-- Claim C3 (amended): the claimed speed transfer holds only when the
speed phase actually executes, i.e. when the pre-flight gate holds
(source has more positive-speed markers than the target; the phase is
otherwise skipped wholesale): under that gate, a target marker whose
id carries speed v > 0 in the source and whose own speed is NULL/0
receives exactly v, and a target marker whose speed is already positive
is never overwritten. -/
theorem C3_amended_speed_update (tz : Int) (bs : Nat) (src : SQLiteDb) (tgt : PGDb)
    (hbs : 0 < bs) (hnd : (src.markers.map (fun m => m.id)).Nodup)
    (hgate : 0 < speedToMigrate src tgt)
    (msrc : SQLiteMarker) (hmem : msrc ∈ src.markers) (v : Int)
    (hv : msrc.speed = some v) (hvpos : 0 < v) :
    List.Forall₂ (fun a b =>
        (a.id = msrc.id → speedGuard a = true → b.speed = some v)
        ∧ (tgtSpeedPos a = true → b.speed = a.speed))
      tgt.markers (migrateAllData tz bs src tgt true true).markers := by
  have hne : ¬(sqliteSpectraCount src = 0 ∧ sqliteMarkersSpeedCount src = 0) := by
    rintro ⟨-, h2⟩
    unfold speedToMigrate at hgate
    rw [h2] at hgate
    omega
  rw [migrateAllData_yes tz bs src tgt hne,
    migrationPhases_markers_pos tz bs src tgt hgate]
  apply forall2_map_self
  intro m _
  have hJ : (toBatches bs (speedRows src)).flatten = speedRows src :=
    toBatches_join bs _ hbs
  constructor
  · intro hid hg
    rw [hJ]
    have hset : speedFold (speedRows src) (flagAll (flaggedMarkerIds src) m)
        = { flagAll (flaggedMarkerIds src) m with speed := some v } := by
      apply speedFold_set (speedRows src) (speedRows_pos src)
        (nodup_speedRows_fst src hnd) msrc.id v
        (mem_speedRows src msrc v hmem hv hvpos)
      · rw [flagAll_id]
        exact hid
      · rw [speedGuard_flagAll]
        exact hg
    rw [hset]
  · intro hpos
    have hg : speedGuard m = false := by
      unfold tgtSpeedPos at hpos
      unfold speedGuard
      cases hs : m.speed with
      | none => rw [hs] at hpos; simp at hpos
      | some w =>
          rw [hs] at hpos
          simp only [decide_eq_true_eq] at hpos
          exact beq_eq_false_iff_ne.mpr (by omega)
    have hgf : speedGuard (flagAll (flaggedMarkerIds src) m) = false := by
      rw [speedGuard_flagAll]
      exact hg
    rw [speedFold_of_guard_false _ _ hgf, flagAll_speed]

theorem mem_of_mem_nonNullChannelRows (src : SQLiteDb) (r : SpectrumRow)
    (h : r ∈ nonNullChannelRows src) : r ∈ src.spectra ∧ r.channels ≠ PyVal.null := by
  unfold nonNullChannelRows at h
  rw [List.mem_insertionSort, List.mem_filter] at h
  refine ⟨h.1, ?_⟩
  have := h.2
  simpa using this

/-- Claim C4 (amended): if the speed phase is interrupted after k
committed batches, re-running the whole program reaches the
uninterrupted final state provided the re-run's pre-flight still counts
fewer positive-speed markers in the target than in the source (the
speed gate passes again); without that proviso the re-run skips the
speed phase wholesale. -/
theorem C4_amended_resumable (tz : Int) (bs k : Nat) (src : SQLiteDb) (tgt : PGDb)
    (hgate1 : 0 < speedToMigrate src tgt)
    (hgate2 : 0 < speedToMigrate src (migrateAllDataStoppedAt tz bs k src tgt true true)) :
    migrateAllData tz bs src (migrateAllDataStoppedAt tz bs k src tgt true true) true true
      = migrateAllData tz bs src tgt true true := by
  have hne : ¬(sqliteSpectraCount src = 0 ∧ sqliteMarkersSpeedCount src = 0) := by
    rintro ⟨-, h2⟩
    unfold speedToMigrate at hgate1
    rw [h2] at hgate1
    omega
  rw [migrateAllDataStoppedAt_yes tz bs k src tgt hne] at hgate2 ⊢
  rw [migrateAllData_yes tz bs src _ hne, migrateAllData_yes tz bs src tgt hne]
  exact resumeStoppedRun tz bs k src tgt hgate1 hgate2

/-- Claim C1 (amended): spectra presence transfers to the target only
when the insert phase actually executes (for the combined script: when
the pre-flight spectra count delta is positive; migrate_spectra needs a
non-empty source): every source spectrum id is then present in the
target, and a row whose id was absent beforehand is inserted as the
source row itself (same marker linkage, converted timestamp), while
pre-existing target rows are kept as they are — their marker linkage is
not reconciled. -/
theorem C1_amended_spectra_presence (tz : Int) (bs : Nat) (src : SQLiteDb) (tgt : PGDb)
    (hnd : (src.spectra.map (fun s => s.id)).Nodup) :
    (0 < spectraToMigrate src tgt →
      (∀ s ∈ src.spectra, ∃ r ∈ (migrateAllData tz bs src tgt true true).spectra,
        r.id = s.id ∧ (spectrumExists tgt s.id = false → r = convertSpectrumRow tz s))
      ∧ ∀ r ∈ tgt.spectra, r ∈ (migrateAllData tz bs src tgt true true).spectra)
    ∧ (sqliteSpectraCount src ≠ 0 →
      (∀ s ∈ src.spectra, ∃ r ∈ (migrateSpectra tz src tgt true).spectra,
        r.id = s.id ∧ (spectrumExists tgt s.id = false → r = convertSpectrumRow tz s))
      ∧ ∀ r ∈ tgt.spectra, r ∈ (migrateSpectra tz src tgt true).spectra) := by
  have hcore1 : ∀ s ∈ src.spectra,
      ∃ r ∈ (insertSpectraRows tz (sortedSpectra src) tgt).spectra,
        r.id = s.id ∧ (spectrumExists tgt s.id = false → r = convertSpectrumRow tz s) := by
    intro s hs
    have hs' : s ∈ sortedSpectra src := by
      unfold sortedSpectra
      rw [List.mem_insertionSort]
      exact hs
    by_cases hex : spectrumExists tgt s.id = true
    · obtain ⟨r, hr, hrid⟩ := (spectrumExists_iff tgt s.id).mp hex
      refine ⟨r, mem_spectra_insertSpectraRows tz _ tgt r hr, hrid, fun hf => ?_⟩
      rw [hex] at hf
      cases hf
    · have hex' : spectrumExists tgt s.id = false := by
        cases hx : spectrumExists tgt s.id
        · rfl
        · exact absurd hx hex
      have hconv := insertSpectraRows_inserted tz (sortedSpectra src) tgt
        (nodup_sortedSpectra src hnd) s hs' hex'
      exact ⟨convertSpectrumRow tz s, hconv, convertSpectrumRow_id tz s, fun _ => rfl⟩
  have hcore2 : ∀ r ∈ tgt.spectra, r ∈ (insertSpectraRows tz (sortedSpectra src) tgt).spectra :=
    fun r hr => mem_spectra_insertSpectraRows tz _ tgt r hr
  constructor
  · intro hstm
    have hne : ¬(sqliteSpectraCount src = 0 ∧ sqliteMarkersSpeedCount src = 0) := by
      rintro ⟨h1, -⟩
      unfold spectraToMigrate at hstm
      rw [h1] at hstm
      omega
    have hsp : (migrateAllData tz bs src tgt true true).spectra
        = (insertSpectraRows tz (sortedSpectra src) tgt).spectra := by
      rw [migrateAllData_yes tz bs src tgt hne, migrationPhases_spectra, if_pos hstm]
    rw [hsp]
    exact ⟨hcore1, hcore2⟩
  · intro hz
    have hsp : (migrateSpectra tz src tgt true).spectra
        = (insertSpectraRows tz (sortedSpectra src) tgt).spectra := by
      rw [migrateSpectra_yes tz src tgt hz, updateMarkerFlagsU_spectra]
    rw [hsp]
    exact ⟨hcore1, hcore2⟩

/-- Claim C7 (amended): the stored created_at of a newly inserted
spectrum is datetime.fromtimestamp of the source epoch number, i.e. the
epoch shifted by the platform's local-timezone offset; it equals the
direct epoch-as-UTC mapping exactly when that offset is zero. -/
theorem C7_amended_timestamp (tz : Int) (bs : Nat) (src : SQLiteDb) (tgt : PGDb)
    (hnd : (src.spectra.map (fun s => s.id)).Nodup) :
    (0 < spectraToMigrate src tgt →
      ∀ s ∈ src.spectra, spectrumExists tgt s.id = false →
        ∃ r ∈ (migrateAllData tz bs src tgt true true).spectra,
          r.id = s.id ∧ r.created_at = s.created_at + tz
          ∧ (tz = 0 → r.created_at = s.created_at))
    ∧ (sqliteSpectraCount src ≠ 0 →
      ∀ s ∈ src.spectra, spectrumExists tgt s.id = false →
        ∃ r ∈ (migrateSpectra tz src tgt true).spectra,
          r.id = s.id ∧ r.created_at = s.created_at + tz
          ∧ (tz = 0 → r.created_at = s.created_at)) := by
  have hcore : ∀ s ∈ src.spectra, spectrumExists tgt s.id = false →
      ∃ r ∈ (insertSpectraRows tz (sortedSpectra src) tgt).spectra,
        r.id = s.id ∧ r.created_at = s.created_at + tz
        ∧ (tz = 0 → r.created_at = s.created_at) := by
    intro s hs hex
    have hs' : s ∈ sortedSpectra src := by
      unfold sortedSpectra
      rw [List.mem_insertionSort]
      exact hs
    have hconv := insertSpectraRows_inserted tz (sortedSpectra src) tgt
      (nodup_sortedSpectra src hnd) s hs' hex
    refine ⟨convertSpectrumRow tz s, hconv, convertSpectrumRow_id tz s,
      convertSpectrumRow_created_at tz s, fun h0 => ?_⟩
    rw [convertSpectrumRow_created_at tz s, h0, Int.add_zero]
  constructor
  · intro hstm
    have hne : ¬(sqliteSpectraCount src = 0 ∧ sqliteMarkersSpeedCount src = 0) := by
      rintro ⟨h1, -⟩
      unfold spectraToMigrate at hstm
      rw [h1] at hstm
      omega
    have hsp : (migrateAllData tz bs src tgt true true).spectra
        = (insertSpectraRows tz (sortedSpectra src) tgt).spectra := by
      rw [migrateAllData_yes tz bs src tgt hne, migrationPhases_spectra, if_pos hstm]
    rw [hsp]
    exact hcore
  · intro hz
    have hsp : (migrateSpectra tz src tgt true).spectra
        = (insertSpectraRows tz (sortedSpectra src) tgt).spectra := by
      rw [migrateSpectra_yes tz src tgt hz, updateMarkerFlagsU_spectra]
    rw [hsp]
    exact hcore

theorem migrateSpectraCore_markers (tz : Int) (src : SQLiteDb) (tgt : PGDb) :
    (updateMarkerFlagsU src (insertSpectraRows tz (sortedSpectra src) tgt)).markers
      = tgt.markers.map (flagAll (flaggedMarkerIds src)) := by
  rw [updateMarkerFlagsU_eq_map]
  show (insertSpectraRows tz (sortedSpectra src) tgt).markers.map
      (flagAll (flaggedMarkerIds src)) = _
  rw [insertSpectraRows_markers]

theorem updateSpectraColumnsRun_markers (jsonLoads : String → Option (List Int))
    (src : SQLiteDb) (tgt : PGDb) (c : Bool) :
    (updateSpectraColumnsRun jsonLoads src tgt c).markers = tgt.markers := by
  unfold updateSpectraColumnsRun
  split
  · rfl
  · split
    · rfl
    · rw [foldl_updRowStep_eq_map]

/-- Claim C5 (amended): the flag transfer holds for a complete confirmed
run that does not take the nothing-to-migrate early exit (the early exit
fires when the source has no spectra — and, for the combined script, no
positive-speed markers — even if flagged markers exist); a target flag
that is already true is never flipped false by any operation of any of
the three scripts. -/
theorem C5_amended_flags (tz : Int) (bs : Nat) (src : SQLiteDb) (tgt : PGDb) :
    (∀ msrc ∈ src.markers, msrc.has_spectrum = 1 →
      ¬(sqliteSpectraCount src = 0 ∧ sqliteMarkersSpeedCount src = 0) →
      ∀ m' ∈ (migrateAllData tz bs src tgt true true).markers,
        m'.id = msrc.id → m'.has_spectrum = true)
    ∧ (∀ msrc ∈ src.markers, msrc.has_spectrum = 1 → sqliteSpectraCount src ≠ 0 →
      ∀ m' ∈ (migrateSpectra tz src tgt true).markers,
        m'.id = msrc.id → m'.has_spectrum = true)
    ∧ (∀ ra ca, List.Forall₂ (fun a b => a.has_spectrum = true → b.has_spectrum = true)
        tgt.markers (migrateAllData tz bs src tgt ra ca).markers)
    ∧ (∀ c, List.Forall₂ (fun a b => a.has_spectrum = true → b.has_spectrum = true)
        tgt.markers (migrateSpectra tz src tgt c).markers)
    ∧ (∀ c jsonLoads, (updateSpectraColumnsRun jsonLoads src tgt c).markers = tgt.markers) := by
  refine ⟨?_, ?_, ?_, ?_, ?_⟩
  · intro msrc hmem hflag hne m' hm' hid
    rw [migrateAllData_yes tz bs src tgt hne] at hm'
    have hin : msrc.id ∈ flaggedMarkerIds src := mem_flaggedMarkerIds src msrc hmem hflag
    by_cases hspm : 0 < speedToMigrate src tgt
    · rw [migrationPhases_markers_pos tz bs src tgt hspm] at hm'
      obtain ⟨m0, _, rfl⟩ := List.mem_map.mp hm'
      rw [speedFold_id, flagAll_id] at hid
      rw [speedFold_flag]
      exact flagAll_sets _ m0 (hid ▸ hin)
    · rw [migrationPhases_markers_nonpos tz bs src tgt hspm] at hm'
      obtain ⟨m0, _, rfl⟩ := List.mem_map.mp hm'
      rw [flagAll_id] at hid
      exact flagAll_sets _ m0 (hid ▸ hin)
  · intro msrc hmem hflag hz m' hm' hid
    rw [migrateSpectra_yes tz src tgt hz, migrateSpectraCore_markers] at hm'
    have hin : msrc.id ∈ flaggedMarkerIds src := mem_flaggedMarkerIds src msrc hmem hflag
    obtain ⟨m0, _, rfl⟩ := List.mem_map.mp hm'
    rw [flagAll_id] at hid
    exact flagAll_sets _ m0 (hid ▸ hin)
  · intro ra ca
    rcases migrateAllData_cases tz bs src tgt ra ca with h | h
    · rw [h]
      exact forall2_refl_self _ _ (fun m _ hm => hm)
    · rw [h]
      by_cases hspm : 0 < speedToMigrate src tgt
      · rw [migrationPhases_markers_pos tz bs src tgt hspm]
        apply forall2_map_self
        intro m _ hm
        rw [speedFold_flag]
        exact flagAll_mono _ m hm
      · rw [migrationPhases_markers_nonpos tz bs src tgt hspm]
        apply forall2_map_self
        intro m _ hm
        exact flagAll_mono _ m hm
  · intro c
    rcases migrateSpectra_cases tz src tgt c with h | h
    · rw [h]
      exact forall2_refl_self _ _ (fun m _ hm => hm)
    · rw [h, migrateSpectraCore_markers]
      apply forall2_map_self
      intro m _ hm
      exact flagAll_mono _ m hm
  · intro c jsonLoads
    exact updateSpectraColumnsRun_markers jsonLoads src tgt c

/-- Claim C6 (amended): the update-existing-records script's per-row
UPDATE has no guard on the current target values: once the pre-flight
finds at least one NULL-channels target row, every target spectra row
whose id carries a parseable source row is overwritten with the six
source columns even if already fully populated; only rows whose id does
not occur in the source (and the markers table) are left unchanged. -/
theorem C6_amended_update_unguarded (jsonLoads : String → Option (List Int))
    (src : SQLiteDb) (tgt : PGDb)
    (hnull : (tgt.spectra.filter (fun r => r.channels == PyVal.null)).length ≠ 0)
    (hnd : (src.spectra.map (fun s => s.id)).Nodup) :
    (∀ r ∈ src.spectra, r.channels ≠ PyVal.null → ∀ ch,
        parseChannels jsonLoads r.channels = some ch →
        ∀ w ∈ tgt.spectra, w.id = r.id →
          updRowOne r ch w ∈ (updateSpectraColumnsRun jsonLoads src tgt true).spectra)
    ∧ (∀ w ∈ tgt.spectra, (∀ r ∈ src.spectra, r.id ≠ w.id) →
        w ∈ (updateSpectraColumnsRun jsonLoads src tgt true).spectra)
    ∧ (updateSpectraColumnsRun jsonLoads src tgt true).markers = tgt.markers := by
  have hmap := updateSpectraColumnsRun_eq_map jsonLoads src tgt hnull
  refine ⟨?_, ?_, updateSpectraColumnsRun_markers jsonLoads src tgt true⟩
  · intro r hr hch ch hparse w hw hid
    rw [hmap]
    have hrmem : r ∈ nonNullChannelRows src := mem_nonNullChannelRows src r hr hch
    have hfold : updFoldRow jsonLoads (nonNullChannelRows src) w = updRowOne r ch w :=
      updFoldRow_set jsonLoads _ w r ch (nodup_nonNullChannelRows src hnd) hrmem hparse hid
    rw [← hfold]
    exact List.mem_map_of_mem _ hw
  · intro w hw hno
    rw [hmap]
    have hfold : updFoldRow jsonLoads (nonNullChannelRows src) w = w := by
      apply updFoldRow_no_match
      intro q hq hqid
      exfalso
      have hq' := mem_of_mem_nonNullChannelRows src q hq
      exact hno q hq'.1 hqid
    rw [← hfold]
    exact List.mem_map_of_mem _ hw

/-- Claim C8: a channels value that fails to parse as JSON is skipped
only in the update-existing-records variant — that row's target
counterpart is left unchanged while every other parseable row is still
updated — and the two bulk-insert variants attempt no parse at all,
passing the raw channels value through on insert. -/
theorem C8_parse_failure_and_raw_insert (jsonLoads : String → Option (List Int))
    (tz : Int) (bs : Nat) (src : SQLiteDb) (tgt : PGDb)
    (hnull : (tgt.spectra.filter (fun r => r.channels == PyVal.null)).length ≠ 0)
    (hnd : (src.spectra.map (fun s => s.id)).Nodup) :
    (∀ r ∈ src.spectra, ∀ s0, r.channels = PyVal.str s0 → jsonLoads s0 = Option.none →
      ∀ w ∈ tgt.spectra, w.id = r.id →
        w ∈ (updateSpectraColumnsRun jsonLoads src tgt true).spectra)
    ∧ (∀ r ∈ src.spectra, r.channels ≠ PyVal.null → ∀ ch,
        parseChannels jsonLoads r.channels = some ch →
        ∀ w ∈ tgt.spectra, w.id = r.id →
          updRowOne r ch w ∈ (updateSpectraColumnsRun jsonLoads src tgt true).spectra)
    ∧ (0 < spectraToMigrate src tgt →
      ∀ s ∈ src.spectra, spectrumExists tgt s.id = false →
        ∃ r ∈ (migrateAllData tz bs src tgt true true).spectra,
          r.id = s.id ∧ r.channels = s.channels)
    ∧ (sqliteSpectraCount src ≠ 0 →
      ∀ s ∈ src.spectra, spectrumExists tgt s.id = false →
        ∃ r ∈ (migrateSpectra tz src tgt true).spectra,
          r.id = s.id ∧ r.channels = s.channels) := by
  have hmap := updateSpectraColumnsRun_eq_map jsonLoads src tgt hnull
  have hcore : ∀ s ∈ src.spectra, spectrumExists tgt s.id = false →
      ∃ r ∈ (insertSpectraRows tz (sortedSpectra src) tgt).spectra,
        r.id = s.id ∧ r.channels = s.channels := by
    intro s hs hex
    have hs' : s ∈ sortedSpectra src := by
      unfold sortedSpectra
      rw [List.mem_insertionSort]
      exact hs
    have hconv := insertSpectraRows_inserted tz (sortedSpectra src) tgt
      (nodup_sortedSpectra src hnd) s hs' hex
    exact ⟨convertSpectrumRow tz s, hconv, convertSpectrumRow_id tz s,
      convertSpectrumRow_channels tz s⟩
  refine ⟨?_, ?_, ?_, ?_⟩
  · intro r hr s0 hstr hfail w hw hid
    rw [hmap]
    have hfold : updFoldRow jsonLoads (nonNullChannelRows src) w = w := by
      apply updFoldRow_no_match
      intro q hq hqid
      have hq' := mem_of_mem_nonNullChannelRows src q hq
      have hrq : q = r := by
        apply List.inj_on_of_nodup_map hnd hq'.1 hr
        rw [hqid, hid]
      rw [hrq, hstr]
      show (jsonLoads s0).map PyVal.lst = Option.none
      rw [hfail]
      rfl
    rw [← hfold]
    exact List.mem_map_of_mem _ hw
  · intro r hr hch ch hparse w hw hid
    rw [hmap]
    have hrmem : r ∈ nonNullChannelRows src := mem_nonNullChannelRows src r hr hch
    have hfold : updFoldRow jsonLoads (nonNullChannelRows src) w = updRowOne r ch w :=
      updFoldRow_set jsonLoads _ w r ch (nodup_nonNullChannelRows src hnd) hrmem hparse hid
    rw [← hfold]
    exact List.mem_map_of_mem _ hw
  · intro hstm s hs hex
    have hne : ¬(sqliteSpectraCount src = 0 ∧ sqliteMarkersSpeedCount src = 0) := by
      rintro ⟨h1, -⟩
      unfold spectraToMigrate at hstm
      rw [h1] at hstm
      omega
    have hsp : (migrateAllData tz bs src tgt true true).spectra
        = (insertSpectraRows tz (sortedSpectra src) tgt).spectra := by
      rw [migrateAllData_yes tz bs src tgt hne, migrationPhases_spectra, if_pos hstm]
    rw [hsp]
    exact hcore s hs hex
  · intro hz s hs hex
    have hsp : (migrateSpectra tz src tgt true).spectra
        = (insertSpectraRows tz (sortedSpectra src) tgt).spectra := by
      rw [migrateSpectra_yes tz src tgt hz, updateMarkerFlagsU_spectra]
    rw [hsp]
    exact hcore s hs hex

/-- A spectra row with NULL in every optional column and epoch 0
(concrete test data builder). -/
def blankRow (i mi : Nat) : SpectrumRow :=
  ⟨i, mi, PyVal.null, Option.none, Option.none, Option.none, Option.none, Option.none,
   Option.none, Option.none, Option.none, Option.none, Option.none, 0⟩

def srcC1 : SQLiteDb := ⟨[⟨5, 1, Option.none⟩], [blankRow 1 5]⟩

def tgtC1 : PGDb := ⟨[⟨5, false, Option.none⟩, ⟨99, false, Option.none⟩], [blankRow 1 99]⟩

/-- Claim C1 (counterexample): a source spectrum with id 1 linked to
marker 5, against a target that already holds a spectra row with id 1
linked to marker 99 (both marker counterparts present): after a
complete confirmed run of either script the target still has no row
with id 1 and marker linkage 5 — the combined script's count gate skips
the insert phase and neither script touches the pre-existing row. -/
theorem C1_counterexample :
    (∃ s ∈ srcC1.spectra, s.id = 1 ∧ s.marker_id = 5)
    ∧ (∃ m ∈ tgtC1.markers, m.id = 5)
    ∧ ¬(∃ r ∈ (migrateAllData 0 BATCH_SIZE srcC1 tgtC1 true true).spectra,
        r.id = 1 ∧ r.marker_id = 5)
    ∧ ¬(∃ r ∈ (migrateSpectra 0 srcC1 tgtC1 true).spectra,
        r.id = 1 ∧ r.marker_id = 5) := by decide

def srcW1 : SQLiteDb := ⟨[], [blankRow 1 5]⟩

def tgtW1 : PGDb := ⟨[], []⟩

theorem C1_amended_witness :
    ∃ r ∈ (migrateAllData 0 BATCH_SIZE srcW1 tgtW1 true true).spectra,
      r.id = 1 ∧ (spectrumExists tgtW1 1 = false → r = convertSpectrumRow 0 (blankRow 1 5)) :=
  ((C1_amended_spectra_presence 0 BATCH_SIZE srcW1 tgtW1 (by decide)).1 (by decide)).1
    (blankRow 1 5) (by decide)

def srcC3 : SQLiteDb := ⟨[⟨1, 0, some 5⟩], []⟩

def tgtC3 : PGDb := ⟨[⟨1, false, some 0⟩, ⟨2, false, some 7⟩], []⟩

/-- Claim C3 (counterexample): source marker 1 has speed 5 > 0 while the
target's marker 1 has speed 0, but the target already holds as many
positive-speed markers as the source, so the pre-flight delta is not
positive, the speed phase is skipped wholesale, and the target marker
keeps speed 0 after a complete confirmed run. -/
theorem C3_counterexample :
    (∃ m ∈ srcC3.markers, m.id = 1 ∧ m.speed = some 5)
    ∧ (∃ m ∈ tgtC3.markers, m.id = 1 ∧ m.speed = some 0)
    ∧ ¬(∃ m ∈ (migrateAllData 0 BATCH_SIZE srcC3 tgtC3 true true).markers,
        m.id = 1 ∧ m.speed = some 5) := by decide

def srcW3 : SQLiteDb := ⟨[⟨1, 0, some 5⟩], []⟩

def tgtW3 : PGDb := ⟨[⟨1, false, Option.none⟩], []⟩

theorem C3_amended_witness :
    List.Forall₂ (fun a b =>
        (a.id = 1 → speedGuard a = true → b.speed = some 5)
        ∧ (tgtSpeedPos a = true → b.speed = a.speed))
      tgtW3.markers (migrateAllData 0 BATCH_SIZE srcW3 tgtW3 true true).markers :=
  C3_amended_speed_update 0 BATCH_SIZE srcW3 tgtW3 (by decide) (by decide) (by decide)
    ⟨1, 0, some 5⟩ (by decide) 5 rfl (by decide)

def srcC4 : SQLiteDb := ⟨[⟨1, 0, some 5⟩, ⟨2, 0, some 7⟩], []⟩

def tgtC4 : PGDb := ⟨[⟨1, false, some 0⟩, ⟨2, false, some 0⟩, ⟨3, false, some 9⟩], []⟩

/-- Claim C4 (counterexample): with batch size 1, the speed phase over
two source markers is interrupted after the first of two batches; the
one committed batch raises the target's positive-speed count up to the
source's, so the re-run's pre-flight delta is no longer positive, the
re-run skips the speed phase, and marker 2 keeps speed 0 — the final
state differs from an uninterrupted run, which sets it to 7. -/
theorem C4_counterexample :
    migrateAllData 0 1 srcC4 (migrateAllDataStoppedAt 0 1 1 srcC4 tgtC4 true true) true true
      ≠ migrateAllData 0 1 srcC4 tgtC4 true true
    ∧ (∃ m ∈ (migrateAllData 0 1 srcC4
          (migrateAllDataStoppedAt 0 1 1 srcC4 tgtC4 true true) true true).markers,
        m.id = 2 ∧ m.speed = some 0)
    ∧ (∃ m ∈ (migrateAllData 0 1 srcC4 tgtC4 true true).markers,
        m.id = 2 ∧ m.speed = some 7) := by decide

def srcW4 : SQLiteDb := ⟨[⟨1, 0, some 5⟩, ⟨2, 0, some 7⟩], []⟩

def tgtW4 : PGDb := ⟨[⟨1, false, some 0⟩, ⟨2, false, some 0⟩], []⟩

theorem C4_amended_witness :
    migrateAllData 0 1 srcW4 (migrateAllDataStoppedAt 0 1 1 srcW4 tgtW4 true true) true true
      = migrateAllData 0 1 srcW4 tgtW4 true true :=
  C4_amended_resumable 0 1 1 srcW4 tgtW4 (by decide) (by decide)

def srcC5 : SQLiteDb := ⟨[⟨1, 1, Option.none⟩], []⟩

def tgtC5 : PGDb := ⟨[⟨1, false, Option.none⟩], []⟩

/-- Claim C5 (counterexample): the source flags marker 1 as having a
spectrum but holds no spectra rows and no positive speeds, so both
migration scripts take the nothing-to-migrate early exit and a complete
run leaves the target marker's flag false. -/
theorem C5_counterexample :
    (∃ m ∈ srcC5.markers, m.id = 1 ∧ m.has_spectrum = 1)
    ∧ migrateAllData 0 BATCH_SIZE srcC5 tgtC5 true true = tgtC5
    ∧ migrateSpectra 0 srcC5 tgtC5 true = tgtC5
    ∧ (∃ m ∈ (migrateAllData 0 BATCH_SIZE srcC5 tgtC5 true true).markers,
        m.id = 1 ∧ m.has_spectrum = false)
    ∧ (∃ m ∈ (migrateSpectra 0 srcC5 tgtC5 true).markers,
        m.id = 1 ∧ m.has_spectrum = false) := by decide

def srcW5 : SQLiteDb := ⟨[⟨1, 1, Option.none⟩], [blankRow 7 1]⟩

def tgtW5 : PGDb := ⟨[⟨1, false, Option.none⟩], []⟩

theorem C5_amended_witness :
    ∀ m' ∈ (migrateAllData 0 BATCH_SIZE srcW5 tgtW5 true true).markers,
      m'.id = 1 → m'.has_spectrum = true :=
  (C5_amended_flags 0 BATCH_SIZE srcW5 tgtW5).1 ⟨1, 1, Option.none⟩ (by decide) rfl (by decide)

def rowPopulatedC6 : SpectrumRow :=
  { blankRow 1 5 with channels := PyVal.lst [9], channel_count := some 1 }

def srcC6 : SQLiteDb :=
  ⟨[], [{ blankRow 1 5 with channels := PyVal.str "a", channel_count := some 2 }]⟩

def tgtC6 : PGDb := ⟨[], [rowPopulatedC6, blankRow 2 6]⟩

def jsonC6 : String → Option (List Int) := fun _ => some [1, 2]

/-- Claim C6 (counterexample): the target's spectra row id 1 is fully
populated (channels [9]), and a second row id 2 has NULL channels so the
pre-flight proceeds; the update script overwrites the populated row with
the source's values because its UPDATE carries no guard on the current
target values. -/
theorem C6_counterexample :
    (∃ w ∈ tgtC6.spectra, w.id = 1 ∧ w.channels = PyVal.lst [9])
    ∧ rowPopulatedC6 ∉ (updateSpectraColumnsRun jsonC6 srcC6 tgtC6 true).spectra
    ∧ (∃ w ∈ (updateSpectraColumnsRun jsonC6 srcC6 tgtC6 true).spectra,
        w.id = 1 ∧ w.channels = PyVal.lst [1, 2] ∧ w.channel_count = some 2) := by decide

def rowSrcW6 : SpectrumRow :=
  { blankRow 1 5 with channels := PyVal.str "a", channel_count := some 2 }

def srcW6 : SQLiteDb := ⟨[], [rowSrcW6]⟩

def tgtW6 : PGDb := ⟨[], [rowPopulatedC6, blankRow 2 6]⟩

def jsonW6 : String → Option (List Int) := fun _ => some [1, 2]

theorem C6_amended_witness :
    updRowOne rowSrcW6 (PyVal.lst [1, 2]) rowPopulatedC6
      ∈ (updateSpectraColumnsRun jsonW6 srcW6 tgtW6 true).spectra :=
  (C6_amended_update_unguarded jsonW6 srcW6 tgtW6 (by decide) (by decide)).1
    rowSrcW6 (by decide) (by decide) (PyVal.lst [1, 2]) rfl rowPopulatedC6 (by decide) rfl

def srcC7 : SQLiteDb := ⟨[], [blankRow 1 5]⟩

def tgtC7 : PGDb := ⟨[], []⟩

/-- Claim C7 (counterexample): on a platform whose local timezone is one
hour ahead of UTC, the inserted spectrum's stored timestamp is 3600
seconds past the direct epoch-as-UTC mapping of the source's epoch 0 —
datetime.fromtimestamp applies the local-timezone conversion, so a
timezone adjustment is applied. -/
theorem C7_counterexample :
    (∃ s ∈ srcC7.spectra, s.id = 1 ∧ s.created_at = 0)
    ∧ ¬(∃ r ∈ (migrateAllData 3600 BATCH_SIZE srcC7 tgtC7 true true).spectra,
        r.id = 1 ∧ r.created_at = 0)
    ∧ (∃ r ∈ (migrateAllData 3600 BATCH_SIZE srcC7 tgtC7 true true).spectra,
        r.id = 1 ∧ r.created_at = 3600) := by decide

def srcW7 : SQLiteDb := ⟨[], [blankRow 1 5]⟩

def tgtW7 : PGDb := ⟨[], []⟩

theorem C7_amended_witness :
    ∃ r ∈ (migrateAllData 3600 BATCH_SIZE srcW7 tgtW7 true true).spectra,
      r.id = 1 ∧ r.created_at = (blankRow 1 5).created_at + 3600
      ∧ ((3600 : Int) = 0 → r.created_at = (blankRow 1 5).created_at) :=
  (C7_amended_timestamp 3600 BATCH_SIZE srcW7 tgtW7 (by decide)).1 (by decide)
    (blankRow 1 5) (by decide) (by decide)

def rowStrW8 : SpectrumRow := { blankRow 1 5 with channels := PyVal.str "a" }

def srcW8 : SQLiteDb := ⟨[], [rowStrW8]⟩

def tgtW8 : PGDb := ⟨[], [blankRow 1 9]⟩

def jsonW8 : String → Option (List Int) := fun _ => Option.none

theorem C8_witness :
    blankRow 1 9 ∈ (updateSpectraColumnsRun jsonW8 srcW8 tgtW8 true).spectra :=
  (C8_parse_failure_and_raw_insert jsonW8 0 BATCH_SIZE srcW8 tgtW8 (by decide) (by decide)).1
    rowStrW8 (by decide) "a" rfl rfl (blankRow 1 9) (by decide) rfl

def srcC9 : SQLiteDb := ⟨[⟨1, 0, some 5⟩, ⟨2, 0, some 7⟩], []⟩

def tgtC9 : PGDb := ⟨[⟨1, false, some 0⟩, ⟨2, false, some 0⟩], []⟩

def errC9 : Nat → Bool := fun n => n == 2

/-- Claim C9 (counterexample): with batch size 1 an error strikes the
second speed batch; the run exits with code 1, but the committed target
differs from the speed phase's starting state — the first batch's commit
survives, so the phase did partially commit, contradicting the claimed
no-partial-commit-within-the-phase rollback. -/
theorem C9_counterexample :
    (migrateAllDataE errC9 0 1 srcC9 tgtC9 true true).2 = 1
    ∧ (migrateAllDataE errC9 0 1 srcC9 tgtC9 true true).1 ≠ tgtC9
    ∧ (∃ m ∈ (migrateAllDataE errC9 0 1 srcC9 tgtC9 true true).1.markers,
        m.id = 1 ∧ m.speed = some 5)
    ∧ (∃ m ∈ (migrateAllDataE errC9 0 1 srcC9 tgtC9 true true).1.markers,
        m.id = 2 ∧ m.speed = some 0) := by decide

def srcW9 : SQLiteDb := ⟨[], [blankRow 1 5]⟩

def tgtW9 : PGDb := ⟨[], []⟩

def errW9 : Nat → Bool := fun _ => true

theorem C9_amended_witness :
    (migrateAllDataE errW9 0 BATCH_SIZE srcW9 tgtW9 true true).1 = tgtW9
    ∨ (migrateAllDataE errW9 0 BATCH_SIZE srcW9 tgtW9 true true).1
        = (if 0 < spectraToMigrate srcW9 tgtW9
            then insertSpectraRows 0 (sortedSpectra srcW9) tgtW9 else tgtW9)
    ∨ ∃ j, (migrateAllDataE errW9 0 BATCH_SIZE srcW9 tgtW9 true true).1
        = applySpeedBatches ((toBatches BATCH_SIZE (speedRows srcW9)).take j)
            (updateMarkerFlags srcW9 (if 0 < spectraToMigrate srcW9 tgtW9
              then insertSpectraRows 0 (sortedSpectra srcW9) tgtW9 else tgtW9)) :=
  (C9_amended_rollback errW9 0 BATCH_SIZE srcW9 tgtW9).1.1 (by decide)

def srcW10 : SQLiteDb := ⟨[⟨1, 1, Option.none⟩], [blankRow 1 1]⟩

def tgtW10 : PGDb := ⟨[⟨1, false, Option.none⟩], [blankRow 1 1]⟩

theorem C10_witness :
    migrateAllData 0 BATCH_SIZE srcW10 tgtW10 true true = updateMarkerFlags srcW10 tgtW10 :=
  (C10_gates_retest_deltas 0 BATCH_SIZE srcW10 tgtW10 (by decide) (by decide) (by decide)).1
